import Mathlib

/-!
Shallow embedding of the chronos-rest enrichment/person/face core.

The repository stores catalog state in a relational database accessed
through Prisma.  We model the store as lists of rows with `Nat` ids; row
creation draws a fresh id from a `nextId` counter.  JavaScript `Date`
values are modelled as `Nat` timestamps passed in as a `now` parameter.
JSON payloads are modelled by the `Json` inductive below; JavaScript
truthiness of a possibly-absent value is modelled explicitly.

Two historical schema variants coexist in the repository.  The current
variant (prisma schema with `MediaMeta`, `Face`, `PersonStorageItem`
join rows) is embedded in namespace `V2`; the older variant of
`storageItem.service.js` (one nullable foreign-key id per metadata
category on the storage item) is embedded in namespace `SIS`.
-/

/-- JSON values as passed in enrichment payloads. -/
inductive Json where
  | null : Json
  | bool (b : Bool) : Json
  | num (q : ℚ) : Json
  | str (s : String) : Json
  | arr (elems : List Json) : Json
  | obj (fields : List (String × Json)) : Json

/-- JavaScript falsiness of a JSON value (`null`, `false`, `0`, `""`). -/
def Json.falsy : Json → Bool
  | .null => true
  | .bool b => !b
  | .num q => decide (q = 0)
  | .str s => s == ""
  | .arr _ => false
  | .obj _ => false

/-- Property access `j.key` on a JSON value: `some` only for object fields. -/
def Json.getField (j : Json) (key : String) : Option Json :=
  match j with
  | .obj fields => (fields.find? (fun f => f.1 == key)).map (fun f => f.2)
  | _ => none

/-- Truthiness of a possibly-absent JSON value (`undefined` is falsy). -/
def jsTruthy : Option Json → Bool
  | none => false
  | some j => !j.falsy

/-- Truthiness of a possibly-absent string (`undefined` and `""` are falsy). -/
def jsStrTruthy : Option String → Bool
  | none => false
  | some s => s != ""

/-- The JavaScript `x || null` idiom on an optional string field. -/
def jsOrNullStr (o : Option String) : Option String :=
  if jsStrTruthy o then o else none

/-- `{success, message}` result objects returned by the services. -/
structure ServiceResult where
  success : Bool
  message : String
deriving DecidableEq

namespace V2

/-- Row of `storage_items` (current prisma schema). -/
structure StorageItem where
  id : Nat
  userId : Nat
  uri : String
  thumbnail : Option String
  fileName : String
  fileSize : Nat
  mimeType : String
  type : String
  processedAt : Option Nat
deriving DecidableEq

/-- Row of `media_meta`: one typed JSON payload attached to a storage item. -/
structure MediaMetaRow where
  id : Nat
  type : String
  payload : Json
  itemId : Nat

/-- Row of `face_detections` in the shape of the `data` object built by
`face.service.js` for `prisma.face.create`.  The schema's `model Face` also
requires a `userId` column (`user` relation), which that `data` never
supplies — see `faceCreateDataHasUser` below. -/
structure Face where
  id : Nat
  boundingBox : Json
  emotions : Option Json
  age : Option Nat
  gender : Option String
  storageItemId : Nat
  personId : Nat

/-- Row of `people` (current schema: name/type/gender/age). -/
structure Person where
  id : Nat
  name : Option String
  gender : Option String
  age : Option Nat
  type : String
deriving DecidableEq

/-- Row of `profile_pictures` (the schema requires both `s3Key` and `s3Url`). -/
structure ProfilePicture where
  id : Nat
  personId : Nat
  s3Key : String
  s3Url : String
deriving DecidableEq

/-- Row of `person_storage_items`: the Person↔StorageItem join carrying the owning user. -/
structure PersonStorageItem where
  personId : Nat
  storageItemId : Nat
  userId : Nat
deriving DecidableEq

/-- Row of `social_meta`, reduced to its storage-item attachments (all that
`deleteStorageItem` touches). -/
structure SocialMeta where
  id : Nat
  attachments : List Nat
deriving DecidableEq

/-- The relational store of the current schema. -/
structure Store where
  nextId : Nat
  items : List StorageItem
  mediaMetas : List MediaMetaRow
  faces : List Face
  people : List Person
  profilePictures : List ProfilePicture
  personStorageItems : List PersonStorageItem
  socialMetas : List SocialMeta

/-- `prisma.storageItem.findUnique({where: {id}})`. -/
def findItem (s : Store) (id : Nat) : Option StorageItem :=
  s.items.find? (fun it => it.id == id)

/-- `getStorageItemById` of `storageItem.service.js`: a lookup (the presigned
URL replacement only rewrites transient URI strings and is outside the store). -/
def getStorageItemById (s : Store) (id : Nat) : Option StorageItem :=
  findItem s id

/-- One entry of the `mediaMeta` array of an enrichment callback. -/
structure MetaIn where
  type : Option String
  payload : Option Json

/-- `createMediaMeta` of `mediaMeta.service.js`: unconditionally inserts a new
`media_meta` row for the item (`prisma.mediaMeta.create`). -/
def createMediaMeta (meta : MetaIn) (storageItemId : Nat) (s : Store) : Store :=
  { s with
    nextId := s.nextId + 1,
    mediaMetas := s.mediaMetas ++
      [{ id := s.nextId, type := meta.type.getD "", payload := meta.payload.getD Json.null,
         itemId := storageItemId }] }

/-- The skip conditions of the `mediaMeta.map` callback in
`enrichment.service.js`: missing/falsy `type` or `payload`, or a payload that
is an empty array or empty object. -/
def metaSkipped (m : MetaIn) : Bool :=
  if !jsStrTruthy m.type || !jsTruthy m.payload then true
  else
    match m.payload with
    | some (Json.arr []) => true
    | some (Json.obj []) => true
    | _ => false

/-- `createProfilePicture` of `profilePicture.service.js` (current variant):
`prisma.profilePicture.create({data: {s3Key, s3Url, person: {connect}}})`.
The schema requires both `s3Key` and `s3Url`, so when either is passed as
`undefined` the prisma client rejects the call with a validation error and
inserts nothing. -/
def createProfilePicture (personId : Nat) (s3Key s3Url : Option String) (s : Store) :
    Except String Store :=
  match s3Key, s3Url with
  | some k, some u =>
    .ok { s with
      nextId := s.nextId + 1,
      profilePictures := s.profilePictures ++
        [({ id := s.nextId, personId := personId, s3Key := k, s3Url := u }
            : ProfilePicture)] }
  | _, _ =>
    .error "PrismaClientValidationError: missing required s3Key/s3Url in profilePicture.create"

/-- `createPerson` of `person.service.js` (current variant): inserts a `people`
row, then awaits `createProfilePicture` for it.  A failure there is rethrown
by the `catch` after the person row has already been inserted (no transaction
wraps the two inserts). -/
def createPerson (name gender : Option String) (age : Option Nat) (type : Option String)
    (profileS3Key profileS3Url : Option String) (s : Store) :
    Store × Except String Person :=
  let person : Person :=
    { id := s.nextId, name := name, gender := gender, age := age,
      type := type.getD "PERSON" }
  let s1 := { s with nextId := s.nextId + 1, people := s.people ++ [person] }
  match createProfilePicture person.id profileS3Key profileS3Url s1 with
  | .ok s2 => (s2, .ok person)
  | .error e => (s1, .error e)

/-- `getPersonById` of `person.service.js` (current variant): person visible to
the user, i.e. having at least one `person_storage_items` row for that user. -/
def getPersonById (s : Store) (id userId : Nat) : Option Person :=
  s.people.find? (fun p =>
    p.id == id &&
    s.personStorageItems.any (fun l => l.personId == id && l.userId == userId))

/-- `findOrCreatePerson` of `person.service.js` (current variant): requires a
`userId`; with no `personId` it creates a new person outright (no name or
alias search), otherwise it looks the person up in the user's visible set
(possibly `null`).  Its `catch` rethrows any `createPerson` failure; the
store effects made before the throw persist. -/
def findOrCreatePerson (personId : Option Nat) (name gender : Option String)
    (age : Option Nat) (type : Option String) (profileS3Key profileS3Url : Option String)
    (userId : Option Nat) (s : Store) : Store × Except String (Option Person) :=
  match userId with
  | none => (s, .error "userId is required to find or create a person")
  | some uid =>
    match personId with
    | none =>
      match createPerson name gender age type profileS3Key profileS3Url s with
      | (s1, .ok p) => (s1, .ok (some p))
      | (s1, .error e) => (s1, .error e)
    | some pid => (s, .ok (getPersonById s pid uid))

/-- One entry of the `faces` array of an enrichment callback. -/
structure FaceIn where
  boundingBox : Option Json
  personId : Option Nat
  name : Option String
  emotions : Option Json
  age : Option Nat
  gender : Option String
  type : Option String
  profileS3Key : Option String
  profileS3Url : Option String

/-- Whether the `data` object built by `createFace` for `prisma.face.create`
carries the required `user`/`userId` argument.  The schema's `model Face`
declares `userId String @map("user_id")` with a required `user` relation, but
`face.service.js` only passes `boundingBox, emotions, age, gender` and the
`storageItem`/`person` connects — so it does not. -/
def faceCreateDataHasUser : Bool := false

/-- `prisma.face.create` as invoked by `createFace`: the client validates the
`data` against the schema, then inserts.  With the required `user` argument
missing from the `data` (`faceCreateDataHasUser`), every call is rejected
with a validation error and no row is inserted. -/
def faceCreate (face : FaceIn) (storageItemId personId : Nat) (s : Store) :
    Except String (Store × Face) :=
  if faceCreateDataHasUser then
    let row : Face :=
      { id := s.nextId, boundingBox := face.boundingBox.getD Json.null,
        emotions := face.emotions, age := face.age, gender := face.gender,
        storageItemId := storageItemId, personId := personId }
    .ok ({ s with nextId := s.nextId + 1, faces := s.faces ++ [row] }, row)
  else
    .error "PrismaClientValidationError: Argument user is missing in face.create"

/-- A rejected `createFace` promise, tagged by when it settles: a `sync`
error is thrown before the first `await` (the promise is already rejected
when `Promise.all` subscribes to it), an `async` error rejects only after at
least one database round trip. -/
inductive FaceErr where
  | sync (msg : String) : FaceErr
  | async (msg : String) : FaceErr

/-- The message of a rejected face promise. -/
def FaceErr.msg : FaceErr → String
  | .sync m => m
  | .async m => m

/-- Whether the rejection happened synchronously. -/
def FaceErr.isSync : FaceErr → Bool
  | .sync _ => true
  | .async _ => false

/-- `createFace` of `face.service.js`: rejects a missing bounding box
synchronously (before any `await`), then reads the item's owner, resolves the
person (whose inserts persist even when a later step throws) and calls
`prisma.face.create` — which always fails validation under the current schema
(`faceCreate`), so the `person_storage_items` upsert and the success return
are never reached.  They are kept to mirror the source.  The accessing of
`person.id` on a `null` person is the corresponding `TypeError`. -/
def createFace (face : FaceIn) (storageItemId : Nat) (s : Store) :
    Store × Except FaceErr Unit :=
  if !jsTruthy face.boundingBox then
    (s, .error (.sync "Invalid face data, need bounding box"))
  else
    match findItem s storageItemId with
    | none =>
      (s, .error (.async ("Storage item " ++ toString storageItemId ++ " not found")))
    | some item =>
      match findOrCreatePerson face.personId face.name face.gender face.age face.type
          face.profileS3Key face.profileS3Url (some item.userId) s with
      | (s1, .error e) => (s1, .error (.async e))
      | (s1, .ok none) => (s1, .error (.async "TypeError: cannot read id of null person"))
      | (s1, .ok (some person)) =>
        match faceCreate face storageItemId person.id s1 with
        | .error e => (s1, .error (.async e))
        | .ok (s2, _) =>
          if s2.personStorageItems.any (fun l =>
              l.personId == person.id && l.storageItemId == storageItemId) then
            (s2, .ok ())
          else
            ({ s2 with
               personStorageItems := s2.personStorageItems ++
                 [({ personId := person.id, storageItemId := storageItemId,
                     userId := item.userId } : PersonStorageItem)] }, .ok ())

/-- The body of an enrichment callback (`req.body.data`). -/
structure EnrichmentData where
  mediaMeta : Option (List MetaIn)
  faces : Option (List FaceIn)

/-- The `mediaMeta.map` pass of `processEnrichment`: entries failing the skip
checks are ignored, the rest are inserted via `createMediaMeta`. -/
def processMediaMetaList (metas : List MetaIn) (itemId : Nat) (s : Store) : Store :=
  metas.foldl (fun acc m => if metaSkipped m then acc else createMediaMeta m itemId acc) s

/-- The rejection `Promise.all` settles with, given the per-entry rejections
in entry order: a synchronous throw is already a rejected promise when
`Promise.all` subscribes, so the first such entry wins; otherwise the first
asynchronous rejection (entry order) is surfaced.  `none` when every promise
fulfilled. -/
def promiseAllReject (errs : List FaceErr) : Option String :=
  match errs.find? FaceErr.isSync with
  | some e => some e.msg
  | none => errs.head?.map FaceErr.msg

/-- The `faces.map` pass of `processEnrichment` under `Promise.all`: every
`createFace` promise is started and runs to completion or to its own error
(all store writes persist — the rejection of the batch does not cancel the
in-flight calls), and the first rejection to settle (`promiseAllReject`)
becomes the rejection of the batch. -/
def processFacesList (fs : List FaceIn) (itemId : Nat) (s : Store) :
    Store × Option String :=
  let r := fs.foldl
    (fun acc f =>
      match createFace f itemId acc.1 with
      | (s', .ok _) => (s', acc.2)
      | (s', .error e) => (s', acc.2 ++ [e]))
    (s, ([] : List FaceErr))
  (r.1, promiseAllReject r.2)

/-- `processEnrichment` of `enrichment.service.js`.  Returns the final store
together with either the `{success, message}` result or the rethrown error
(the service logs and rethrows any failure of the two batch passes). -/
def processEnrichment (storageItemId : Nat) (data : EnrichmentData) (now : Nat)
    (s : Store) : Store × Except String ServiceResult :=
  match getStorageItemById s storageItemId with
  | none => (s, .ok { success := false, message := "Storage item not found" })
  | some _ =>
    let metaActive := match data.mediaMeta with
      | some ms => !ms.isEmpty
      | none => false
    let s1 := match data.mediaMeta with
      | some ms => if ms.isEmpty then s else processMediaMetaList ms storageItemId s
      | none => s
    let facesActive := match data.faces with
      | some fs => !fs.isEmpty
      | none => false
    let r2 := match data.faces with
      | some fs => if fs.isEmpty then (s1, none) else processFacesList fs storageItemId s1
      | none => (s1, none)
    match r2.2 with
    | some e => (r2.1, .error e)
    | none =>
      let hasUpdates := metaActive || facesActive
      let s3 := if hasUpdates then
          { r2.1 with items := r2.1.items.map (fun it =>
              if it.id == storageItemId then { it with processedAt := some now } else it) }
        else r2.1
      (s3, .ok { success := true,
                 message := if hasUpdates then "Enrichment data processed successfully"
                            else "No updates were made" })

/-- What `processEnrichmentHandler` sends back: an HTTP status with the result
message, or the error forwarded to the express error middleware via `next`. -/
inductive HandlerOutcome where
  | status (code : Nat) (message : String) : HandlerOutcome
  | passedToErrorHandler (e : String) : HandlerOutcome
deriving DecidableEq

/-- `processEnrichmentHandler` of `enrichment.controller.js`: 400 on a
structured failure, 200 on success, `next(error)` on a thrown error. -/
def processEnrichmentHandler (storageItemId : Nat) (data : EnrichmentData) (now : Nat)
    (s : Store) : Store × HandlerOutcome :=
  let r := processEnrichment storageItemId data now s
  match r.2 with
  | .error e => (r.1, .passedToErrorHandler e)
  | .ok res =>
    if res.success then (r.1, .status 200 res.message)
    else (r.1, .status 400 res.message)

/-- `cleanupOrphanedPeople` of `cleanup.service.js`: one raw SQL statement
deleting every `people` row whose id has no `person_storage_items` row
(`id NOT IN (SELECT DISTINCT "personId" ...)`); the schema's `onDelete:
Cascade` removes the deleted people's faces and profile pictures.  Returns
the deleted row count; its `try/catch` never throws. -/
def cleanupOrphanedPeople (s : Store) : Store × Nat :=
  let deleted := s.people.filter (fun p =>
    !s.personStorageItems.any (fun l => l.personId == p.id))
  let deletedIds := deleted.map (fun p => p.id)
  ({ s with
     people := s.people.filter (fun p =>
       s.personStorageItems.any (fun l => l.personId == p.id)),
     faces := s.faces.filter (fun f => !deletedIds.contains f.personId),
     profilePictures := s.profilePictures.filter (fun pp =>
       !deletedIds.contains pp.personId) },
   deleted.length)

/-- `cleanupAfterStorageItemRemoval` of `cleanup.service.js`: requires a
`userId`; among the candidate `personIds` it finds those with zero
`person_storage_items` rows (for any user), then deletes them with the
zero-link predicate re-checked in the `deleteMany` condition.  Returns the
ids of the deleted people. -/
def cleanupAfterStorageItemRemoval (personIds : List Nat) (userId : Option Nat)
    (s : Store) : Except String (Store × List Nat) :=
  match userId with
  | none => .error "userId is required for cleanup"
  | some _ =>
    if personIds.isEmpty then .ok (s, [])
    else
      let orphaned := s.people.filter (fun p =>
        personIds.contains p.id &&
        !s.personStorageItems.any (fun l => l.personId == p.id))
      if orphaned.isEmpty then .ok (s, [])
      else
        let peopleIds := orphaned.map (fun p => p.id)
        let s' := { s with
          people := s.people.filter (fun p =>
            !(peopleIds.contains p.id &&
              !s.personStorageItems.any (fun l => l.personId == p.id))),
          faces := s.faces.filter (fun f => !peopleIds.contains f.personId),
          profilePictures := s.profilePictures.filter (fun pp =>
            !peopleIds.contains pp.personId) }
        .ok (s', peopleIds)

/-- `deleteStorageItem` of `storageItem.service.js` (current variant): the
S3 layer is passed in as the external collaborators `extractKey`
(`extractKeyFromUri`, URL parsing) and `deleteFile`.  Storage-object removal
runs before any database delete; a thrown storage error is rethrown by the
service's `catch`, leaving the store untouched.  On success the item's
faces, social-meta attachments and media-meta rows are removed, the item row
is deleted, and the fire-and-forget orphan cleanup runs (its failures are
swallowed by `.catch`). -/
def deleteStorageItem (extractKey : String → Option String)
    (deleteFile : String → Except String Unit) (id userId : Nat) (s : Store) :
    Store × Except String ServiceResult :=
  match findItem s id with
  | none => (s, .ok { success := false, message := "Storage item not found" })
  | some item =>
    if item.userId != userId then
      (s, .ok { success := false, message := "You don't have permission to delete this item" })
    else
      let filePhase : Except String Unit :=
        if ["PHOTO", "VIDEO", "AUDIO", "DOCUMENT"].contains item.type && item.uri != "" then do
          (match extractKey item.uri with
            | some key => deleteFile key
            | none => pure ())
          (match item.thumbnail with
            | some t =>
              if t != "" then
                match extractKey t with
                | some thumbnailKey => deleteFile thumbnailKey
                | none => pure ()
              else pure ()
            | none => pure ())
        else pure ()
      match filePhase with
      | .error e => (s, .error e)
      | .ok _ =>
        let s1 := { s with faces := s.faces.filter (fun f => f.storageItemId != id) }
        let s2 := { s1 with socialMetas := s1.socialMetas.map (fun (m : SocialMeta) =>
          if m.attachments.contains id then
            { m with attachments := m.attachments.filter (fun a => a != id) }
          else m) }
        let s3 := { s2 with mediaMetas := s2.mediaMetas.filter (fun mm => mm.itemId != id) }
        let s4 := { s3 with items := s3.items.filter (fun it => it.id != id) }
        let s5 := (cleanupOrphanedPeople s4).1
        (s5, .ok { success := true, message := "Storage item deleted successfully" })

end V2

/-- ASCII lowercase of one character (JavaScript/Postgres case-insensitive
matching on ASCII names). -/
def lowerChar (c : Char) : Char :=
  if 65 ≤ c.toNat && c.toNat ≤ 90 then Char.ofNat (c.toNat + 32) else c

/-- ASCII lowercase of a string. -/
def lowerStr (s : String) : String :=
  ⟨s.data.map lowerChar⟩

namespace PersonService

/-- Row of the legacy `people` table: nullable name plus an `aliases` array. -/
structure Person where
  id : Nat
  name : Option String
  aliases : List String
  profilePictureId : Option Nat
deriving DecidableEq

/-- The store slice touched by the legacy name-based resolver. -/
structure Store where
  nextId : Nat
  people : List Person
deriving DecidableEq

/-- The two lookups of the legacy `findOrCreatePerson`: first
`findFirst({where: {name: {equals: name, mode: "insensitive"}}})`, then
`findFirst({where: {aliases: {has: name}}})`. -/
def findPersonByNameOrAlias (s : Store) (name : String) : Option Person :=
  match s.people.find? (fun p =>
      match p.name with
      | some n => lowerStr n == lowerStr name
      | none => false) with
  | some p => some p
  | none => s.people.find? (fun p => p.aliases.contains name)

/-- `findOrCreatePerson` of the legacy `person.service.js`: search by exact
case-insensitive name, then by alias membership; create a new person when
neither matches; otherwise push the supplied aliases that are not already in
the person's alias set. -/
def findOrCreatePerson (name : String) (aliases : List String) (s : Store) :
    Store × Person :=
  match findPersonByNameOrAlias s name with
  | none =>
    let p : Person := { id := s.nextId, name := some name, aliases := aliases,
                        profilePictureId := none }
    ({ s with nextId := s.nextId + 1, people := s.people ++ [p] }, p)
  | some p =>
    if aliases.isEmpty then (s, p)
    else
      let newAliases := aliases.filter (fun a => !p.aliases.contains a)
      if newAliases.isEmpty then (s, p)
      else
        ({ s with people := s.people.map (fun q =>
            if q.id == p.id then { q with aliases := q.aliases ++ newAliases } else q) },
         { p with aliases := p.aliases ++ newAliases })

end PersonService

/-- The JavaScript `x || d` idiom on an optional JSON value. -/
def jsor (o : Option Json) (d : Json) : Json :=
  match o with
  | some v => if v.falsy then d else v
  | none => d

/-- The JavaScript `x || undefined` idiom on an optional JSON column value. -/
def jsUndefOr (o : Option Json) : Option Json :=
  match o with
  | some v => if v.falsy then none else some v
  | none => none

/-- The JavaScript `x || undefined` idiom on an optional string column value. -/
def jsStrUndefOr (o : Option String) : Option String :=
  match o with
  | some v => if v == "" then none else some v
  | none => none

namespace SIS

/-- Row of the older `storage_items` variant: one nullable foreign-key id per
metadata category, plus a JSON `rawMetadata` object. -/
structure StorageItem where
  id : Nat
  userId : Nat
  processedAt : Option Nat
  rawMetadata : Option (List (String × Json))
  geoMetaId : Option Nat
  ocrMetaId : Option Nat
  transcriptMetaId : Option Nat
  keywordMetaId : Option Nat
  labelMetaId : Option Nat
  customLabelMetaId : Option Nat
  contentModerationMetaId : Option Nat

/-- Replace-or-append of one key in a JavaScript object spread. -/
def setKey (m : List (String × Json)) (k : String) (v : Json) : List (String × Json) :=
  if m.any (fun f => f.1 == k) then
    m.map (fun f => if f.1 == k then (f.1, v) else f)
  else m ++ [(k, v)]

/-- The `...(cond && { key: cond })` conditional-spread idiom. -/
def spreadIf (m : List (String × Json)) (k : String) (v : Option Json) : List (String × Json) :=
  match v with
  | some j => if j.falsy then m else setKey m k j
  | none => m

/-- `geoData` of the enrichment body. -/
structure GeoData where
  lat : ℚ
  lng : ℚ
  place : Option String

/-- `ocrData` of the enrichment body. -/
structure OcrData where
  text : Option String
  language : Option String
  rawResponse : Option Json
  blocks : Option Json

/-- `transcriptData` of the enrichment body. -/
structure TranscriptData where
  transcript : String
  language : Option String

/-- `labelData` of the enrichment body. -/
structure LabelData where
  labels : Option Json
  dominantColors : Option Json
  imageQuality : Option Json
  rawResponse : Option Json

/-- `customLabelData` of the enrichment body. -/
structure CustomLabelData where
  customLabels : Option Json
  modelVersion : Option String
  rawResponse : Option Json

/-- `moderationData` of the enrichment body. -/
structure ModerationData where
  moderationLabels : Option Json
  moderationConfidence : Option ℚ
  isSafe : Option Bool
  rawResponse : Option Json

/-- `celebrityData` of the enrichment body (only its raw response is read). -/
structure CelebrityData where
  rawResponse : Option Json

/-- `externalIds` of a face entry. -/
structure ExternalIds where
  rekognition : Option String

/-- One entry of the `faces` array of the older enrichment body. -/
structure FaceData where
  action : Option String
  detectionId : Option Nat
  personId : Option Nat
  name : Option String
  aliases : Option (List String)
  confidence : Option ℚ
  boundingBox : Option Json
  attributes : Option Json
  isCelebrity : Option Bool
  info : Option Json
  externalIds : Option ExternalIds
  collectionId : Option String
  matchConfidence : Option ℚ
  rawResponse : Option Json

/-- The enrichment body handled by `updateEnrichmentData`. -/
structure EnrichData where
  rekognitionMeta : Option Json
  geoData : Option GeoData
  ocrData : Option OcrData
  transcriptData : Option TranscriptData
  keywords : Option Json
  labelData : Option LabelData
  customLabelData : Option CustomLabelData
  moderationData : Option ModerationData
  celebrityData : Option CelebrityData
  faces : Option (List FaceData)

/-- Row of `geoMeta`. -/
structure GeoMeta where
  id : Nat
  lat : ℚ
  lng : ℚ
  place : Option String

/-- Row of `ocrMeta`. -/
structure OcrMeta where
  id : Nat
  text : String
  language : Option String
  rawMetadata : Json

/-- Row of `transcriptMeta`. -/
structure TranscriptMeta where
  id : Nat
  transcript : String
  language : Option String

/-- Row of `keywordMeta`. -/
structure KeywordMeta where
  id : Nat
  keywords : Json

/-- Row of `labelMeta`. -/
structure LabelMeta where
  id : Nat
  labels : Json
  dominantColors : Option Json
  imageQuality : Option Json
  rawMetadata : Option Json

/-- Row of `customLabelMeta`. -/
structure CustomLabelMeta where
  id : Nat
  customLabels : Json
  modelVersion : Option String
  rawMetadata : Option Json

/-- Row of `contentModerationMeta`. -/
structure ContentModerationMeta where
  id : Nat
  moderationLabels : Json
  moderationConfidence : Option ℚ
  isSafe : Bool
  rawMetadata : Option Json

/-- Row of the older `person` table (`aliases` array, celebrity flag). -/
structure PersonRow where
  id : Nat
  name : Option String
  aliases : List String
  isCelebrity : Bool
  celebrityInfo : Option Json
  rawMetadata : Option Json

/-- Row of `faceDetection`. -/
structure FaceDetection where
  id : Nat
  confidence : ℚ
  boundingBox : Json
  storageItemId : Nat
  personId : Nat
  rawMetadata : Option Json

/-- The relational store of the older schema. -/
structure Store where
  nextId : Nat
  items : List StorageItem
  geoMetas : List GeoMeta
  ocrMetas : List OcrMeta
  transcriptMetas : List TranscriptMeta
  keywordMetas : List KeywordMeta
  labelMetas : List LabelMeta
  customLabelMetas : List CustomLabelMeta
  contentModerationMetas : List ContentModerationMeta
  people : List PersonRow
  faceDetections : List FaceDetection

/-- `prisma.storageItem.findUnique({where: {id}})` in the older schema. -/
def findItem (s : Store) (id : Nat) : Option StorageItem :=
  s.items.find? (fun it => it.id == id)

/-- `extractTextFromRawResponse`: concatenated `LINE` block text, trimmed. -/
def extractTextFromRawResponse (rawResponse : Option Json) : String :=
  match rawResponse with
  | none => ""
  | some r =>
    match r.getField "Blocks" with
    | some (Json.arr blocks) =>
      (blocks.foldl
        (fun text b =>
          if (match b.getField "BlockType" with
              | some (Json.str bt) => bt == "LINE"
              | _ => false) then
            text ++ (match b.getField "Text" with
              | some (Json.str t) => t
              | _ => "") ++ "\n"
          else text)
        "").trim
    | _ => ""

/-- `extractLabelsFromRawResponse`: `(name, confidence, instances)` tuples. -/
def extractLabelsFromRawResponse (rawResponse : Option Json) : Json :=
  match rawResponse with
  | none => Json.arr []
  | some r =>
    match r.getField "Labels" with
    | some (Json.arr ls) =>
      Json.arr (ls.map (fun l => Json.obj
        [("name", (l.getField "Name").getD Json.null),
         ("confidence", (l.getField "Confidence").getD Json.null),
         ("instances", jsor (l.getField "Instances") (Json.arr []))]))
    | _ => Json.arr []

/-- `extractCustomLabelsFromRawResponse`: pass-through of `CustomLabels`. -/
def extractCustomLabelsFromRawResponse (rawResponse : Option Json) : Json :=
  match rawResponse with
  | none => Json.arr []
  | some r =>
    match r.getField "CustomLabels" with
    | some v => if v.falsy then Json.arr [] else v
    | none => Json.arr []

/-- `extractModerationLabelsFromRawResponse`: pass-through of `ModerationLabels`. -/
def extractModerationLabelsFromRawResponse (rawResponse : Option Json) : Json :=
  match rawResponse with
  | none => Json.arr []
  | some r =>
    match r.getField "ModerationLabels" with
    | some v => if v.falsy then Json.arr [] else v
    | none => Json.arr []

/-- `hasSensitiveContent`: any raw `ModerationLabels` entry with
`Confidence > 80`, or any pre-extracted `moderationLabels` entry with
`confidence > 80`. -/
def hasSensitiveContent (moderationData : Option ModerationData) : Bool :=
  match moderationData with
  | none => false
  | some md =>
    let rawHit :=
      match md.rawResponse with
      | some r =>
        match r.getField "ModerationLabels" with
        | some (Json.arr ls) =>
          ls.any (fun l =>
            match l.getField "Confidence" with
            | some (Json.num c) => decide (80 < c)
            | _ => false)
        | _ => false
      | none => false
    let directHit :=
      match md.moderationLabels with
      | some (Json.arr ls) =>
        if ls.length > 0 then
          ls.any (fun l =>
            match l.getField "confidence" with
            | some (Json.num c) => decide (80 < c)
            | _ => false)
        else false
      | _ => false
    rawHit || directHit

/-- The `updates` object accumulated by `updateEnrichmentData`: fields left
`none` are absent (`undefined`) and hence untouched by the final
`prisma.storageItem.update`. -/
structure Updates where
  rawMetadata : List (String × Json)
  geoMetaId : Option Nat := none
  ocrMetaId : Option Nat := none
  transcriptMetaId : Option Nat := none
  keywordMetaId : Option Nat := none
  labelMetaId : Option Nat := none
  customLabelMetaId : Option Nat := none
  contentModerationMetaId : Option Nat := none

/-- The initial `updates` object: `processedAt` (added at application time)
plus the merged `rawMetadata` of raw provider responses. -/
def initialUpdates (it : StorageItem) (d : EnrichData) : Updates :=
  let m0 := it.rawMetadata.getD []
  let m1 := spreadIf m0 "rekognition" d.rekognitionMeta
  let m2 := spreadIf m1 "textract" (match d.ocrData with
    | some o => o.rawResponse
    | none => none)
  let m3 := spreadIf m2 "labels" (match d.labelData with
    | some l => l.rawResponse
    | none => none)
  let m4 := spreadIf m3 "moderation" (match d.moderationData with
    | some m => m.rawResponse
    | none => none)
  let m5 := spreadIf m4 "celebrities" (match d.celebrityData with
    | some c => c.rawResponse
    | none => none)
  let m6 := spreadIf m5 "customLabels" (match d.customLabelData with
    | some c => c.rawResponse
    | none => none)
  { rawMetadata := m6 }

/-- The `geoData` block: update the linked `geoMeta` row in place, or create
a new row, and record its id in `updates`. -/
def geoStep (d : EnrichData) (it : StorageItem) (su : Store × Updates) :
    Store × Updates :=
  match d.geoData with
  | none => su
  | some g =>
    match it.geoMetaId with
    | some gid =>
      ({ su.1 with geoMetas := su.1.geoMetas.map (fun r =>
          if r.id == gid then
            { r with lat := g.lat, lng := g.lng, place := jsOrNullStr g.place }
          else r) },
       { su.2 with geoMetaId := some gid })
    | none =>
      ({ su.1 with
         nextId := su.1.nextId + 1,
         geoMetas := su.1.geoMetas ++
           [({ id := su.1.nextId, lat := g.lat, lng := g.lng,
               place := jsOrNullStr g.place } : GeoMeta)] },
       { su.2 with geoMetaId := some su.1.nextId })

/-- The `ocrData` block: text falls back to extraction from the raw Textract
response, which is itself retained in the row's `rawMetadata`. -/
def ocrStep (d : EnrichData) (it : StorageItem) (su : Store × Updates) :
    Store × Updates :=
  match d.ocrData with
  | none => su
  | some o =>
    let text := match o.text with
      | some t => if t == "" then extractTextFromRawResponse o.rawResponse else t
      | none => extractTextFromRawResponse o.rawResponse
    let language := jsOrNullStr o.language
    let rawMeta := jsor o.rawResponse (jsor o.blocks (Json.obj []))
    match it.ocrMetaId with
    | some oid =>
      ({ su.1 with ocrMetas := su.1.ocrMetas.map (fun r =>
          if r.id == oid then
            { r with text := text, language := language, rawMetadata := rawMeta }
          else r) },
       { su.2 with ocrMetaId := some oid })
    | none =>
      ({ su.1 with
         nextId := su.1.nextId + 1,
         ocrMetas := su.1.ocrMetas ++
           [({ id := su.1.nextId, text := text, language := language,
               rawMetadata := rawMeta } : OcrMeta)] },
       { su.2 with ocrMetaId := some su.1.nextId })

/-- The `transcriptData` block. -/
def transcriptStep (d : EnrichData) (it : StorageItem) (su : Store × Updates) :
    Store × Updates :=
  match d.transcriptData with
  | none => su
  | some t =>
    match it.transcriptMetaId with
    | some tid =>
      ({ su.1 with transcriptMetas := su.1.transcriptMetas.map (fun r =>
          if r.id == tid then
            { r with transcript := t.transcript, language := jsOrNullStr t.language }
          else r) },
       { su.2 with transcriptMetaId := some tid })
    | none =>
      ({ su.1 with
         nextId := su.1.nextId + 1,
         transcriptMetas := su.1.transcriptMetas ++
           [({ id := su.1.nextId, transcript := t.transcript,
               language := jsOrNullStr t.language } : TranscriptMeta)] },
       { su.2 with transcriptMetaId := some su.1.nextId })

/-- The `keywords` block (guarded by JavaScript truthiness of `data.keywords`). -/
def keywordStep (d : EnrichData) (it : StorageItem) (su : Store × Updates) :
    Store × Updates :=
  match d.keywords with
  | none => su
  | some kw =>
    if kw.falsy then su
    else
      match it.keywordMetaId with
      | some kid =>
        ({ su.1 with keywordMetas := su.1.keywordMetas.map (fun r =>
            if r.id == kid then { r with keywords := kw } else r) },
         { su.2 with keywordMetaId := some kid })
      | none =>
        ({ su.1 with
           nextId := su.1.nextId + 1,
           keywordMetas := su.1.keywordMetas ++
             [({ id := su.1.nextId, keywords := kw } : KeywordMeta)] },
         { su.2 with keywordMetaId := some su.1.nextId })

/-- The `labelData` block (guarded by `labels || rawResponse`): labels fall
back to extraction from the raw response; `undefined`-valued fields leave
the existing column untouched on update. -/
def labelStep (d : EnrichData) (it : StorageItem) (su : Store × Updates) :
    Store × Updates :=
  match d.labelData with
  | none => su
  | some ld =>
    if !(jsTruthy ld.labels || jsTruthy ld.rawResponse) then su
    else
      let labels := jsor ld.labels (extractLabelsFromRawResponse ld.rawResponse)
      match it.labelMetaId with
      | some lid =>
        ({ su.1 with labelMetas := su.1.labelMetas.map (fun r =>
            if r.id == lid then
              { r with
                labels := labels,
                dominantColors := match jsUndefOr ld.dominantColors with
                  | some v => some v
                  | none => r.dominantColors,
                imageQuality := match jsUndefOr ld.imageQuality with
                  | some v => some v
                  | none => r.imageQuality,
                rawMetadata := match jsUndefOr ld.rawResponse with
                  | some v => some v
                  | none => r.rawMetadata }
            else r) },
         { su.2 with labelMetaId := some lid })
      | none =>
        ({ su.1 with
           nextId := su.1.nextId + 1,
           labelMetas := su.1.labelMetas ++
             [({ id := su.1.nextId, labels := labels,
                 dominantColors := jsUndefOr ld.dominantColors,
                 imageQuality := jsUndefOr ld.imageQuality,
                 rawMetadata := jsUndefOr ld.rawResponse } : LabelMeta)] },
         { su.2 with labelMetaId := some su.1.nextId })

/-- The `customLabelData` block (guarded by `customLabels || rawResponse`). -/
def customLabelStep (d : EnrichData) (it : StorageItem) (su : Store × Updates) :
    Store × Updates :=
  match d.customLabelData with
  | none => su
  | some cd =>
    if !(jsTruthy cd.customLabels || jsTruthy cd.rawResponse) then su
    else
      let customLabels := jsor cd.customLabels
        (extractCustomLabelsFromRawResponse cd.rawResponse)
      match it.customLabelMetaId with
      | some cid =>
        ({ su.1 with customLabelMetas := su.1.customLabelMetas.map (fun r =>
            if r.id == cid then
              { r with
                customLabels := customLabels,
                modelVersion := match jsStrUndefOr cd.modelVersion with
                  | some v => some v
                  | none => r.modelVersion,
                rawMetadata := match jsUndefOr cd.rawResponse with
                  | some v => some v
                  | none => r.rawMetadata }
            else r) },
         { su.2 with customLabelMetaId := some cid })
      | none =>
        ({ su.1 with
           nextId := su.1.nextId + 1,
           customLabelMetas := su.1.customLabelMetas ++
             [({ id := su.1.nextId, customLabels := customLabels,
                 modelVersion := jsStrUndefOr cd.modelVersion,
                 rawMetadata := jsUndefOr cd.rawResponse } : CustomLabelMeta)] },
         { su.2 with customLabelMetaId := some su.1.nextId })

/-- The `moderationData` block (guarded by `moderationLabels || rawResponse`):
`isSafe` is the supplied value when present, otherwise the negation of
`hasSensitiveContent`. -/
def moderationStep (d : EnrichData) (it : StorageItem) (su : Store × Updates) :
    Store × Updates :=
  match d.moderationData with
  | none => su
  | some md =>
    if !(jsTruthy md.moderationLabels || jsTruthy md.rawResponse) then su
    else
      let moderationLabels := jsor md.moderationLabels
        (extractModerationLabelsFromRawResponse md.rawResponse)
      let isSafe := match md.isSafe with
        | some b => b
        | none => !hasSensitiveContent (some md)
      let confUpd : Option ℚ := match md.moderationConfidence with
        | some c => if c = 0 then none else some c
        | none => none
      match it.contentModerationMetaId with
      | some mid =>
        ({ su.1 with contentModerationMetas := su.1.contentModerationMetas.map (fun r =>
            if r.id == mid then
              { r with
                moderationLabels := moderationLabels,
                moderationConfidence := match confUpd with
                  | some v => some v
                  | none => r.moderationConfidence,
                isSafe := isSafe,
                rawMetadata := match jsUndefOr md.rawResponse with
                  | some v => some v
                  | none => r.rawMetadata }
            else r) },
         { su.2 with contentModerationMetaId := some mid })
      | none =>
        ({ su.1 with
           nextId := su.1.nextId + 1,
           contentModerationMetas := su.1.contentModerationMetas ++
             [({ id := su.1.nextId, moderationLabels := moderationLabels,
                 moderationConfidence := confUpd, isSafe := isSafe,
                 rawMetadata := jsUndefOr md.rawResponse } : ContentModerationMeta)] },
         { su.2 with contentModerationMetaId := some su.1.nextId })

/-- Fields of a JSON object value (empty for anything else). -/
def objFields : Option Json → List (String × Json)
  | some (Json.obj fs) => fs
  | _ => []

/-- Numeric field access with the `x || 0` fallback. -/
def numField (j : Json) (k : String) : ℚ :=
  match j.getField k with
  | some (Json.num v) => v
  | _ => 0

/-- The `{faceId, collectionId}` object stored under `rekognition` for a
person (absent values dropped). -/
def rekogIdFields (f : FaceData) : List (String × Json) :=
  (match f.externalIds with
    | some ext =>
      match ext.rekognition with
      | some rid => [("faceId", Json.str rid)]
      | none => []
    | none => []) ++
  (match f.collectionId with
    | some cid => [("collectionId", Json.str cid)]
    | none => [])

/-- The conditional `rekognition` fields stored on a face detection. -/
def rekogDetectionFields (f : FaceData) : List (String × Json) :=
  (if jsTruthy f.attributes then [("attributes", (f.attributes).getD Json.null)] else []) ++
  (match f.externalIds with
    | some ext =>
      match ext.rekognition with
      | some rid => if rid != "" then [("faceId", Json.str rid)] else []
      | none => []
    | none => []) ++
  (match f.matchConfidence with
    | some c => if c = 0 then [] else [("matchConfidence", Json.num c)]
    | none => []) ++
  (match f.rawResponse with
    | some r => if r.falsy then [] else [("raw", r)]
    | none => [])

/-- Truthiness of `person.rawMetadata?.rekognition?.faceId`. -/
def personHasFaceId (p : PersonRow) : Bool :=
  match p.rawMetadata with
  | some rm =>
    match rm.getField "rekognition" with
    | some rk => jsTruthy (rk.getField "faceId")
    | none => false
  | none => false

/-- `prisma.person.findFirst({where: {OR: [{name}, {aliases: {has: name}}]}})`
(note: the name match here is case-sensitive). -/
def findPersonByNameOrAlias (s : Store) (nm : String) : Option PersonRow :=
  s.people.find? (fun p => p.name == some nm || p.aliases.contains nm)

/-- The person row created inline by the faces branch. -/
def newPersonFromFace (s : Store) (nm : String) (f : FaceData) : PersonRow :=
  { id := s.nextId, name := some nm, aliases := f.aliases.getD [],
    isCelebrity := (f.isCelebrity).getD false, celebrityInfo := jsUndefOr f.info,
    rawMetadata := match f.externalIds with
      | some _ => some (Json.obj [("rekognition", Json.obj (rekogIdFields f))])
      | none => none }

/-- An `action: "create"` face entry: resolve (or create, with alias merge,
face-id attachment and celebrity promotion) the person by name when no
`personId` is supplied, then insert a `faceDetection` row if a person was
resolved. -/
def createFaceAction (itemId : Nat) (f : FaceData) (s : Store) : Store :=
  let resolved : Store × Option Nat :=
    match f.personId with
    | some pid => (s, some pid)
    | none =>
      if jsStrTruthy f.name then
        let nm := (f.name).getD ""
        match findPersonByNameOrAlias s nm with
        | none =>
          let p := newPersonFromFace s nm f
          ({ s with nextId := s.nextId + 1, people := s.people ++ [p] }, some p.id)
        | some p =>
          match f.aliases with
          | some als =>
            if als.isEmpty then (s, some p.id)
            else
              let newAliases := als.filter (fun a => !p.aliases.contains a)
              if newAliases.isEmpty then (s, some p.id)
              else
                let setFaceId :=
                  (match f.externalIds with
                    | some ext => jsStrTruthy ext.rekognition
                    | none => false) && !personHasFaceId p
                let upd := fun (q : PersonRow) =>
                  let q1 := { q with aliases := q.aliases ++ newAliases }
                  let q2 := if setFaceId then
                      { q1 with rawMetadata := some (Json.obj
                          (setKey (objFields q.rawMetadata) "rekognition"
                            (Json.obj (rekogIdFields f)))) }
                    else q1
                  if (f.isCelebrity).getD false && jsTruthy f.info then
                    { q2 with isCelebrity := true, celebrityInfo := f.info }
                  else q2
                ({ s with people := s.people.map (fun q =>
                    if q.id == p.id then upd q else q) }, some p.id)
          | none => (s, some p.id)
      else (s, none)
  match resolved with
  | (s1, none) => s1
  | (s1, some pid) =>
    { s1 with
      nextId := s1.nextId + 1,
      faceDetections := s1.faceDetections ++
        [({ id := s1.nextId, confidence := (f.confidence).getD 0,
            boundingBox := jsor f.boundingBox (Json.obj []),
            storageItemId := itemId, personId := pid,
            rawMetadata :=
              if jsTruthy f.attributes || jsTruthy f.rawResponse then
                some (Json.obj [("rekognition", Json.obj (rekogDetectionFields f))])
              else none } : FaceDetection)] }

/-- An `action: "update"` face entry: re-resolve the person if referenced
(creating by name if absent, without alias merge), then update the
referenced detection in place (absent fields left untouched). -/
def updateFaceAction (f : FaceData) (s : Store) : Store :=
  let resolved : Store × Option Nat :=
    match f.personId with
    | some pid => (s, some pid)
    | none =>
      if jsStrTruthy f.name then
        let nm := (f.name).getD ""
        match findPersonByNameOrAlias s nm with
        | some p => (s, some p.id)
        | none =>
          let p := newPersonFromFace s nm f
          ({ s with nextId := s.nextId + 1, people := s.people ++ [p] }, some p.id)
      else (s, none)
  let rawMeta : Option Json :=
    if jsTruthy f.attributes || (f.externalIds).isSome || jsTruthy f.rawResponse then
      some (Json.obj [("rekognition", Json.obj (rekogDetectionFields f))])
    else none
  { resolved.1 with faceDetections := resolved.1.faceDetections.map (fun r =>
      if f.detectionId == some r.id then
        { r with
          confidence := match f.confidence with
            | some c => c
            | none => r.confidence,
          boundingBox := jsor f.boundingBox (Json.obj []),
          rawMetadata := match rawMeta with
            | some v => some v
            | none => r.rawMetadata,
          personId := match resolved.2 with
            | some pid => pid
            | none => r.personId }
      else r) }

/-- The trailing explicit deletions of the faces branch. -/
def deleteFaceActions (fs : List FaceData) (s : Store) : Store :=
  let detectionIdsToDelete :=
    (fs.filter (fun f => f.action == some "delete")).filterMap (fun f => f.detectionId)
  if detectionIdsToDelete.isEmpty then s
  else
    { s with faceDetections := s.faceDetections.filter (fun r =>
        !detectionIdsToDelete.contains r.id) }

/-- `processRawFaceResponse`: faces carrying raw Rekognition responses;
celebrity faces are found by exact name plus celebrity flag, bounding boxes
are scaled from fractional to percentage form. -/
def processRawFaceResponse (storageItemId : Nat) (fs : List FaceData) (s : Store) : Store :=
  fs.foldl
    (fun acc f =>
      match f.rawResponse with
      | none => acc
      | some r =>
        if r.falsy then acc
        else
          let bb := jsor (r.getField "BoundingBox") (Json.obj [])
          let conf := numField r "Confidence"
          let resolved : Store × Option Nat :=
            if (f.isCelebrity).getD false && jsStrTruthy f.name then
              let nm := (f.name).getD ""
              match acc.people.find? (fun p => p.name == some nm && p.isCelebrity) with
              | some p => (acc, some p.id)
              | none =>
                let p : PersonRow :=
                  { id := acc.nextId, name := some nm, aliases := f.aliases.getD [],
                    isCelebrity := true, celebrityInfo := some (jsor f.info (Json.obj [])),
                    rawMetadata := none }
                ({ acc with nextId := acc.nextId + 1, people := acc.people ++ [p] },
                 some p.id)
            else
              match f.personId with
              | some pid => (acc, some pid)
              | none => (acc, none)
          match resolved with
          | (s1, none) => s1
          | (s1, some pid) =>
            { s1 with
              nextId := s1.nextId + 1,
              faceDetections := s1.faceDetections ++
                [({ id := s1.nextId, confidence := conf,
                    boundingBox := Json.obj
                      [("x", Json.num (numField bb "Left" * 100)),
                       ("y", Json.num (numField bb "Top" * 100)),
                       ("width", Json.num (numField bb "Width" * 100)),
                       ("height", Json.num (numField bb "Height" * 100))],
                    storageItemId := storageItemId, personId := pid,
                    rawMetadata := some (Json.obj
                      [("rekognition", Json.obj
                        [("raw", r),
                         ("attributes", Json.obj
                           [("emotions", jsor (r.getField "Emotions") (Json.arr [])),
                            ("ageRange", jsor (r.getField "AgeRange") (Json.obj [])),
                            ("gender", jsor (r.getField "Gender") (Json.obj []))])])]) }
                  : FaceDetection)] })
    s

/-- The faces branch of `updateEnrichmentData`: the raw-response path when
the first entry carries one, otherwise the create/update loop followed by
the explicit deletions. -/
def facesStep (d : EnrichData) (itemId : Nat) (s : Store) : Store :=
  match d.faces with
  | none => s
  | some fs =>
    if fs.isEmpty then s
    else
      if jsTruthy (match fs.head? with
          | some f0 => f0.rawResponse
          | none => none) then
        processRawFaceResponse itemId fs s
      else
        deleteFaceActions fs
          (fs.foldl
            (fun acc f =>
              if f.action == some "create" then createFaceAction itemId f acc
              else if f.action == some "update" && (f.detectionId).isSome then
                updateFaceAction f acc
              else acc)
            s)

/-- The final `prisma.storageItem.update` with the collected `updates`:
`processedAt = now`, the merged `rawMetadata`, and every link id that a
category block recorded (absent ones untouched). -/
def applyUpdates (j : StorageItem) (u : Updates) (now : Nat) : StorageItem :=
  { j with
    processedAt := some now,
    rawMetadata := some u.rawMetadata,
    geoMetaId := match u.geoMetaId with
      | some i => some i
      | none => j.geoMetaId,
    ocrMetaId := match u.ocrMetaId with
      | some i => some i
      | none => j.ocrMetaId,
    transcriptMetaId := match u.transcriptMetaId with
      | some i => some i
      | none => j.transcriptMetaId,
    keywordMetaId := match u.keywordMetaId with
      | some i => some i
      | none => j.keywordMetaId,
    labelMetaId := match u.labelMetaId with
      | some i => some i
      | none => j.labelMetaId,
    customLabelMetaId := match u.customLabelMetaId with
      | some i => some i
      | none => j.customLabelMetaId,
    contentModerationMetaId := match u.contentModerationMetaId with
      | some i => some i
      | none => j.contentModerationMetaId }

/-- `updateEnrichmentData` of `storageItem.service.js` (older variant): the
category blocks in source order, then the faces branch, then the single
item update collecting every link change plus `processedAt`. -/
def updateEnrichmentData (id : Nat) (d : EnrichData) (now : Nat) (s : Store) :
    Store × ServiceResult :=
  match findItem s id with
  | none => (s, { success := false, message := "Storage item not found" })
  | some it =>
    let su1 := geoStep d it (s, initialUpdates it d)
    let su2 := ocrStep d it su1
    let su3 := transcriptStep d it su2
    let su4 := keywordStep d it su3
    let su5 := labelStep d it su4
    let su6 := customLabelStep d it su5
    let su7 := moderationStep d it su6
    let s8 := facesStep d id su7.1
    let s9 := { s8 with items := s8.items.map (fun j =>
        if j.id == id then applyUpdates j su7.2 now else j) }
    (s9, { success := true, message := "Enrichment data updated" })

end SIS

/-! Claim-side definitions: category accessors over the older schema, the
spec's reading of the moderation threshold, and concrete stores and payloads
used by witnesses and counterexamples. -/

/-- The recognized metadata categories of the merge engine. -/
inductive MetaCat where
  | geo | ocr | transcript | keyword | label | customLabel | moderation
deriving DecidableEq

/-- The item's nullable foreign-key link for a category. -/
def catLink (it : SIS.StorageItem) : MetaCat → Option Nat
  | .geo => it.geoMetaId
  | .ocr => it.ocrMetaId
  | .transcript => it.transcriptMetaId
  | .keyword => it.keywordMetaId
  | .label => it.labelMetaId
  | .customLabel => it.customLabelMetaId
  | .moderation => it.contentModerationMetaId

/-- The link recorded in the accumulated `updates` for a category. -/
def updLink (u : SIS.Updates) : MetaCat → Option Nat
  | .geo => u.geoMetaId
  | .ocr => u.ocrMetaId
  | .transcript => u.transcriptMetaId
  | .keyword => u.keywordMetaId
  | .label => u.labelMetaId
  | .customLabel => u.customLabelMetaId
  | .moderation => u.contentModerationMetaId

/-- Whether the payload triggers a category's block (its source guard). -/
def catProcessed (d : SIS.EnrichData) : MetaCat → Bool
  | .geo => d.geoData.isSome
  | .ocr => d.ocrData.isSome
  | .transcript => d.transcriptData.isSome
  | .keyword => match d.keywords with
    | some kw => !kw.falsy
    | none => false
  | .label => match d.labelData with
    | some ld => jsTruthy ld.labels || jsTruthy ld.rawResponse
    | none => false
  | .customLabel => match d.customLabelData with
    | some cd => jsTruthy cd.customLabels || jsTruthy cd.rawResponse
    | none => false
  | .moderation => match d.moderationData with
    | some md => jsTruthy md.moderationLabels || jsTruthy md.rawResponse
    | none => false

/-- The ids of a category's side-record table. -/
def catTableIds (s : SIS.Store) : MetaCat → List Nat
  | .geo => s.geoMetas.map (fun r => r.id)
  | .ocr => s.ocrMetas.map (fun r => r.id)
  | .transcript => s.transcriptMetas.map (fun r => r.id)
  | .keyword => s.keywordMetas.map (fun r => r.id)
  | .label => s.labelMetas.map (fun r => r.id)
  | .customLabel => s.customLabelMetas.map (fun r => r.id)
  | .moderation => s.contentModerationMetas.map (fun r => r.id)

/-- The moderation labels taken from the raw provider response. -/
def rawModLabels (md : SIS.ModerationData) : List Json :=
  match md.rawResponse with
  | some r =>
    match r.getField "ModerationLabels" with
    | some (Json.arr ls) => ls
    | _ => []
  | none => []

/-- The pre-extracted moderation label list. -/
def directModLabels (md : SIS.ModerationData) : List Json :=
  match md.moderationLabels with
  | some (Json.arr ls) => ls
  | _ => []

/-- A raw label exceeding 80% confidence (the spec's reading). -/
def exceeds80Raw (l : Json) : Prop :=
  ∃ c : ℚ, l.getField "Confidence" = some (Json.num c) ∧ 80 < c

/-- A pre-extracted label exceeding 80% confidence (the spec's reading). -/
def exceeds80Direct (l : Json) : Prop :=
  ∃ c : ℚ, l.getField "confidence" = some (Json.num c) ∧ 80 < c

/-- "No moderation label (raw or pre-extracted) exceeds 80% confidence". -/
def noLabelExceeds80 (md : SIS.ModerationData) : Prop :=
  (∀ l ∈ rawModLabels md, ¬ exceeds80Raw l) ∧
  (∀ l ∈ directModLabels md, ¬ exceeds80Direct l)

/-- A photo item owned by user 7. -/
def sampleItem : V2.StorageItem :=
  { id := 1, userId := 7, uri := "s3://bucket/a.jpg", thumbnail := none,
    fileName := "a.jpg", fileSize := 10, mimeType := "image/jpeg", type := "PHOTO",
    processedAt := none }

/-- A store holding just `sampleItem`. -/
def sampleStore : V2.Store :=
  { nextId := 100, items := [sampleItem], mediaMetas := [], faces := [],
    people := [], profilePictures := [], personStorageItems := [], socialMetas := [] }

/-- A store with no items at all. -/
def emptyStore : V2.Store :=
  { nextId := 0, items := [], mediaMetas := [], faces := [], people := [],
    profilePictures := [], personStorageItems := [], socialMetas := [] }

/-- A payload with one valid media-meta entry. -/
def claim1Data : V2.EnrichmentData :=
  { mediaMeta := some [{ type := some "OCR",
                         payload := some (Json.obj [("text", Json.str "hello")]) }],
    faces := none }

/-- A valid face-create entry named "A". -/
def face1 : V2.FaceIn :=
  { boundingBox := some (Json.obj [("Left", Json.str "0.1")]), personId := none,
    name := some "A", emotions := none, age := none, gender := none, type := none,
    profileS3Key := none, profileS3Url := none }

/-- A malformed face entry: no bounding box. -/
def faceBad : V2.FaceIn :=
  { boundingBox := none, personId := none, name := some "X", emotions := none,
    age := none, gender := none, type := none, profileS3Key := none,
    profileS3Url := none }

/-- A valid face-create entry named "B". -/
def face3 : V2.FaceIn :=
  { boundingBox := some (Json.obj [("Left", Json.str "0.5")]), personId := none,
    name := some "B", emotions := none, age := none, gender := none, type := none,
    profileS3Key := none, profileS3Url := none }

/-- A faces batch whose second entry is malformed. -/
def claim2Data : V2.EnrichmentData :=
  { mediaMeta := none, faces := some [face1, faceBad, face3] }

/-- A fully-populated face-create entry named "A" (profile refs supplied). -/
def faceR1 : V2.FaceIn :=
  { boundingBox := some (Json.obj [("Left", Json.str "0.1")]), personId := none,
    name := some "A", emotions := none, age := none, gender := none, type := none,
    profileS3Key := some "pp/a.jpg", profileS3Url := some "https://cdn/pp/a.jpg" }

/-- A fully-populated face-create entry named "B" (profile refs supplied). -/
def faceR3 : V2.FaceIn :=
  { boundingBox := some (Json.obj [("Left", Json.str "0.5")]), personId := none,
    name := some "B", emotions := none, age := none, gender := none, type := none,
    profileS3Key := some "pp/b.jpg", profileS3Url := some "https://cdn/pp/b.jpg" }

/-- A payload whose only media-meta entry lacks its payload. -/
def claim10Data : V2.EnrichmentData :=
  { mediaMeta := some [{ type := some "OCR", payload := none }], faces := none }

/-- A store containing a person named "Alice" (and nothing else). -/
def aliceStore : V2.Store :=
  { nextId := 50, items := [], mediaMetas := [], faces := [],
    people := [{ id := 3, name := some "Alice", gender := none, age := none,
                 type := "PERSON" }],
    profilePictures := [], personStorageItems := [], socialMetas := [] }

/-- A legacy person "alice" with alias "Al". -/
def legacyAlice : PersonService.Person :=
  { id := 11, name := some "alice", aliases := ["Al"], profilePictureId := none }

/-- A legacy people store holding just `legacyAlice`. -/
def legacyStore : PersonService.Store :=
  { nextId := 30, people := [legacyAlice] }

/-- An older-schema item with no metadata links yet. -/
def sisItem : SIS.StorageItem :=
  { id := 1, userId := 7, processedAt := none, rawMetadata := none,
    geoMetaId := none, ocrMetaId := none, transcriptMetaId := none,
    keywordMetaId := none, labelMetaId := none, customLabelMetaId := none,
    contentModerationMetaId := none }

/-- An older-schema store holding just `sisItem`. -/
def sisStore : SIS.Store :=
  { nextId := 10, items := [sisItem], geoMetas := [], ocrMetas := [],
    transcriptMetas := [], keywordMetas := [], labelMetas := [],
    customLabelMetas := [], contentModerationMetas := [], people := [],
    faceDetections := [] }

/-- A moderation payload with one 90%-confidence label and no explicit
`isSafe`. -/
def modData : SIS.ModerationData :=
  { moderationLabels := some (Json.arr
      [Json.obj [("name", Json.str "Violence"), ("confidence", Json.num 90)]]),
    moderationConfidence := none, isSafe := none, rawResponse := none }

/-- An enrichment body carrying only `modData`. -/
def claim8Data : SIS.EnrichData :=
  { rekognitionMeta := none, geoData := none, ocrData := none,
    transcriptData := none, keywords := none, labelData := none,
    customLabelData := none, moderationData := some modData,
    celebrityData := none, faces := none }

/-- An enrichment body carrying only OCR text. -/
def claim3Data : SIS.EnrichData :=
  { rekognitionMeta := none, geoData := none,
    ocrData := some { text := some "hi", language := none, rawResponse := none,
                      blocks := none },
    transcriptData := none, keywords := none, labelData := none,
    customLabelData := none, moderationData := none, celebrityData := none,
    faces := none }

/-- A person referenced by one link row. -/
def pLinked : V2.Person :=
  { id := 1, name := some "L", gender := none, age := none, type := "PERSON" }

/-- A person with no link rows. -/
def pOrphan : V2.Person :=
  { id := 2, name := some "O", gender := none, age := none, type := "PERSON" }

/-- A store with one linked person and one orphan. -/
def cleanupStore : V2.Store :=
  { nextId := 5, items := [], mediaMetas := [], faces := [],
    people := [pLinked, pOrphan], profilePictures := [],
    personStorageItems := [{ personId := 1, storageItemId := 9, userId := 7 }],
    socialMetas := [] }

/-- The metadata side tables and the item table of an older-schema store are
unchanged (the faces branch only touches people and face detections). -/
def MetaFrame (s s' : SIS.Store) : Prop :=
  s'.geoMetas = s.geoMetas ∧ s'.ocrMetas = s.ocrMetas ∧
  s'.transcriptMetas = s.transcriptMetas ∧ s'.keywordMetas = s.keywordMetas ∧
  s'.labelMetas = s.labelMetas ∧ s'.customLabelMetas = s.customLabelMetas ∧
  s'.contentModerationMetas = s.contentModerationMetas ∧ s'.items = s.items

/-! Theorems. -/

/-- C10: a non-empty `mediaMeta` array whose entries are all skipped (here:
one entry missing its payload) creates no metadata records, yet still sets
`processedAt` and returns success with "Enrichment data processed
successfully". -/
theorem claim10_all_skipped_entries_still_stamp :
    ((V2.processEnrichment 1 claim10Data 42 sampleStore).1.mediaMetas = []) ∧
    ((V2.processEnrichment 1 claim10Data 42 sampleStore).1.items
       = [{ sampleItem with processedAt := some 42 }]) ∧
    ((V2.processEnrichment 1 claim10Data 42 sampleStore).2
       = .ok { success := true, message := "Enrichment data processed successfully" }) :=
  ⟨rfl, rfl, rfl⟩

/-- C1 counterexample: replaying the identical one-entry `mediaMeta` payload
leaves one row after the first run and two rows after the second, so the
second run does produce an additional side-metadata row. -/
theorem claim1_counterexample_duplicate_rows :
    ((V2.processEnrichment 1 claim1Data 42 sampleStore).1.mediaMetas.length = 1) ∧
    (((V2.processEnrichment 1 claim1Data 43
        (V2.processEnrichment 1 claim1Data 42 sampleStore).1).1).mediaMetas.length = 2) :=
  ⟨rfl, rfl⟩

/-- C2 counterexample: a faces batch whose second entry lacks its bounding
box makes `processEnrichment` rethrow the error, so the callback does not
return success (the handler forwards the error instead of a 200) — and no
`face_detections` row is created for the two well-formed entries either. -/
theorem claim2_counterexample_batch_rethrows :
    ((V2.processEnrichment 1 claim2Data 42 sampleStore).2
       = .error "Invalid face data, need bounding box") ∧
    ((V2.processEnrichmentHandler 1 claim2Data 42 sampleStore).2
       = .passedToErrorHandler "Invalid face data, need bounding box") ∧
    ((V2.processEnrichment 1 claim2Data 42 sampleStore).1.faces
       = sampleStore.faces) :=
  ⟨rfl, rfl, rfl⟩

/-- C5: when the item id does not exist, `processEnrichment` returns the
structured failure `{success: false, message}` (no exception) and the HTTP
handler surfaces it as a 400 response. -/
theorem claim5_missing_item_structured_400 (s : V2.Store) (itemId now : Nat)
    (data : V2.EnrichmentData) (h : V2.findItem s itemId = none) :
    V2.processEnrichment itemId data now s
        = (s, .ok { success := false, message := "Storage item not found" }) ∧
    (V2.processEnrichmentHandler itemId data now s).2
        = .status 400 "Storage item not found" := by
  have h1 : V2.processEnrichment itemId data now s
      = (s, .ok { success := false, message := "Storage item not found" }) := by
    unfold V2.processEnrichment V2.getStorageItemById
    rw [h]
  refine ⟨h1, ?_⟩
  unfold V2.processEnrichmentHandler
  rw [h1]
  rfl

/-- Witness for C5 at the empty store. -/
theorem claim5_witness :
    V2.processEnrichment 1 claim10Data 5 emptyStore
        = (emptyStore, .ok { success := false, message := "Storage item not found" }) ∧
    (V2.processEnrichmentHandler 1 claim10Data 5 emptyStore).2
        = .status 400 "Storage item not found" :=
  claim5_missing_item_structured_400 emptyStore 1 5 claim10Data rfl

/-- C6: a payload with no recognized category (no `mediaMeta` array entries
and no `faces` entries) returns success with "No updates were made" and the
whole store — in particular the item's `processedAt` and every other field —
is unchanged. -/
theorem claim6_noop_payload_untouched (s : V2.Store) (itemId now : Nat)
    (data : V2.EnrichmentData) (it : V2.StorageItem)
    (h : V2.findItem s itemId = some it)
    (hm : data.mediaMeta = none ∨ data.mediaMeta = some [])
    (hf : data.faces = none ∨ data.faces = some []) :
    V2.processEnrichment itemId data now s
      = (s, .ok { success := true, message := "No updates were made" }) := by
  unfold V2.processEnrichment V2.getStorageItemById
  rw [h]
  rcases hm with hm | hm <;> rcases hf with hf | hf <;> rw [hm, hf] <;> rfl

/-- Witness for C6 at `sampleStore` with an entirely empty payload. -/
theorem claim6_witness :
    V2.processEnrichment 1 { mediaMeta := none, faces := none } 9 sampleStore
      = (sampleStore, .ok { success := true, message := "No updates were made" }) :=
  claim6_noop_payload_untouched sampleStore 1 9 _ sampleItem rfl (Or.inl rfl) (Or.inl rfl)

/-- The `mediaMeta` pass appends exactly one row per non-skipped entry and
touches nothing else. -/
theorem processMediaMetaList_stats (itemId : Nat) (ms : List V2.MetaIn) :
    ∀ s : V2.Store,
      (V2.processMediaMetaList ms itemId s).mediaMetas.length
          = s.mediaMetas.length + (ms.filter (fun m => !V2.metaSkipped m)).length ∧
      (V2.processMediaMetaList ms itemId s).items = s.items ∧
      (V2.processMediaMetaList ms itemId s).faces = s.faces ∧
      (V2.processMediaMetaList ms itemId s).people = s.people ∧
      (V2.processMediaMetaList ms itemId s).personStorageItems = s.personStorageItems := by
  induction ms with
  | nil => intro s; simp [V2.processMediaMetaList]
  | cons m ms ih =>
    intro s
    by_cases h : V2.metaSkipped m
    · have e : V2.processMediaMetaList (m :: ms) itemId s
          = V2.processMediaMetaList ms itemId s := by
        simp [V2.processMediaMetaList, h]
      rw [e]
      obtain ⟨h1, h2, h3, h4, h5⟩ := ih s
      refine ⟨?_, h2, h3, h4, h5⟩
      rw [h1]
      simp [List.filter_cons, h]
    · have e : V2.processMediaMetaList (m :: ms) itemId s
          = V2.processMediaMetaList ms itemId (V2.createMediaMeta m itemId s) := by
        simp [V2.processMediaMetaList, h]
      rw [e]
      obtain ⟨h1, h2, h3, h4, h5⟩ := ih (V2.createMediaMeta m itemId s)
      refine ⟨?_, ?_, ?_, ?_, ?_⟩
      · rw [h1]
        simp [V2.createMediaMeta, List.filter_cons, h]
        omega
      · rw [h2]; rfl
      · rw [h3]; rfl
      · rw [h4]; rfl
      · rw [h5]; rfl

/-- Stamping `processedAt` commutes with the by-id lookup. -/
theorem findItem_map_stamp (id now : Nat) (l : List V2.StorageItem) :
    (l.map (fun it => if it.id == id then { it with processedAt := some now } else it)).find?
        (fun it => it.id == id)
      = (l.find? (fun it => it.id == id)).map
          (fun it => { it with processedAt := some now }) := by
  induction l with
  | nil => rfl
  | cons a l ih =>
    by_cases h : a.id == id
    · simp only [List.map_cons, h, if_pos]
      rw [List.find?_cons_of_pos, List.find?_cons_of_pos]
      · rfl
      · exact h
      · exact h
    · simp only [List.map_cons, h, if_neg, Bool.false_eq_true, not_false_eq_true]
      rw [List.find?_cons_of_neg, List.find?_cons_of_neg]
      · exact ih
      · simp [h]
      · simp [h]

/-- One run of `processEnrichment` on a mediaMeta-only payload: one new
`media_meta` row per non-skipped entry, the item still present, and the
face/person/link tables untouched. -/
theorem processEnrichment_meta_only_run (s : V2.Store) (itemId now : Nat)
    (data : V2.EnrichmentData) (ms : List V2.MetaIn) (it : V2.StorageItem)
    (hitem : V2.findItem s itemId = some it)
    (hfaces : data.faces = none) (hmeta : data.mediaMeta = some ms) :
    ((V2.processEnrichment itemId data now s).1.mediaMetas.length
        = s.mediaMetas.length + (ms.filter (fun m => !V2.metaSkipped m)).length) ∧
    (∃ it', V2.findItem (V2.processEnrichment itemId data now s).1 itemId = some it') ∧
    ((V2.processEnrichment itemId data now s).1.personStorageItems = s.personStorageItems) ∧
    ((V2.processEnrichment itemId data now s).1.faces = s.faces) ∧
    ((V2.processEnrichment itemId data now s).1.people = s.people) := by
  obtain ⟨h1, h2, h3, h4, h5⟩ := processMediaMetaList_stats itemId ms s
  by_cases hE : ms.isEmpty
  · have hms : ms = [] := List.isEmpty_iff.mp hE
    subst hms
    have e : V2.processEnrichment itemId data now s
        = (s, .ok { success := true, message := "No updates were made" }) := by
      unfold V2.processEnrichment V2.getStorageItemById
      rw [hitem, hmeta, hfaces]
      rfl
    rw [e]
    exact ⟨by simp, ⟨it, hitem⟩, rfl, rfl, rfl⟩
  · have e : V2.processEnrichment itemId data now s
        = ({ V2.processMediaMetaList ms itemId s with
              items := (V2.processMediaMetaList ms itemId s).items.map (fun j =>
                if j.id == itemId then { j with processedAt := some now } else j) },
           .ok { success := true, message := "Enrichment data processed successfully" }) := by
      unfold V2.processEnrichment V2.getStorageItemById
      rw [hitem, hmeta, hfaces]
      simp [hE]
    rw [e]
    refine ⟨by simpa using h1, ?_, by simpa using h5, by simpa using h3, by simpa using h4⟩
    refine ⟨{ it with processedAt := some now }, ?_⟩
    show ((V2.processMediaMetaList ms itemId s).items.map _).find? _ = _
    rw [h2, findItem_map_stamp]
    unfold V2.findItem at hitem
    rw [hitem]
    rfl

/-- C1 amended: replay of an identical mediaMeta payload is not idempotent —
each run appends one fresh `media_meta` row per non-skipped entry (so two
runs add twice as many rows as one run), while the person–item link table
and the face and person tables are unchanged by such replays. -/
theorem claim1_amended_replay_appends (s : V2.Store) (itemId now now' : Nat)
    (data : V2.EnrichmentData) (ms : List V2.MetaIn) (it : V2.StorageItem)
    (hitem : V2.findItem s itemId = some it)
    (hfaces : data.faces = none) (hmeta : data.mediaMeta = some ms) :
    ((V2.processEnrichment itemId data now s).1.mediaMetas.length
        = s.mediaMetas.length + (ms.filter (fun m => !V2.metaSkipped m)).length) ∧
    ((V2.processEnrichment itemId data now'
        (V2.processEnrichment itemId data now s).1).1.mediaMetas.length
        = s.mediaMetas.length
          + 2 * (ms.filter (fun m => !V2.metaSkipped m)).length) ∧
    ((V2.processEnrichment itemId data now'
        (V2.processEnrichment itemId data now s).1).1.personStorageItems
        = s.personStorageItems) ∧
    ((V2.processEnrichment itemId data now'
        (V2.processEnrichment itemId data now s).1).1.faces = s.faces) ∧
    ((V2.processEnrichment itemId data now'
        (V2.processEnrichment itemId data now s).1).1.people = s.people) := by
  obtain ⟨a1, ⟨it1, a2⟩, a3, a4, a5⟩ :=
    processEnrichment_meta_only_run s itemId now data ms it hitem hfaces hmeta
  obtain ⟨b1, _, b3, b4, b5⟩ :=
    processEnrichment_meta_only_run (V2.processEnrichment itemId data now s).1 itemId now'
      data ms it1 a2 hfaces hmeta
  refine ⟨a1, ?_, ?_, ?_, ?_⟩
  · rw [b1, a1]; ring
  · rw [b3, a3]
  · rw [b4, a4]
  · rw [b5, a5]

/-- Witness for C1 amended at `sampleStore` with the one-entry payload. -/
theorem claim1_amended_witness :
    ((V2.processEnrichment 1 claim1Data 42 sampleStore).1.mediaMetas.length
        = sampleStore.mediaMetas.length + 1) ∧
    ((V2.processEnrichment 1 claim1Data 43
        (V2.processEnrichment 1 claim1Data 42 sampleStore).1).1.mediaMetas.length
        = sampleStore.mediaMetas.length + 2 * 1) := by
  have h := claim1_amended_replay_appends sampleStore 1 42 43 claim1Data
    ((claim1Data.mediaMeta).getD []) sampleItem rfl rfl rfl
  exact ⟨h.1, h.2.1⟩

/-- `createFace` without a bounding box rejects synchronously before any
store effect. -/
theorem createFace_missing_bb (f : V2.FaceIn) (itemId : Nat) (s : V2.Store)
    (hbb : jsTruthy f.boundingBox = false) :
    V2.createFace f itemId s
      = (s, .error (.sync "Invalid face data, need bounding box")) := by
  unfold V2.createFace
  rw [hbb]
  rfl

/-- `createFace` for a fully-populated entry with no `personId` on an
existing item: the person row and its profile picture are inserted, then
`prisma.face.create` fails validation (the required `user` argument is never
supplied), so the call rejects asynchronously with no face row and no join
row, the items and media-meta tables untouched. -/
theorem createFace_no_face_row (f : V2.FaceIn) (itemId : Nat) (s : V2.Store)
    (it : V2.StorageItem) (k u : String)
    (hbb : jsTruthy f.boundingBox = true) (hp : f.personId = none)
    (hk : f.profileS3Key = some k) (hu : f.profileS3Url = some u)
    (hitem : V2.findItem s itemId = some it) :
    ∃ s', V2.createFace f itemId s
        = (s', .error (.async
            "PrismaClientValidationError: Argument user is missing in face.create")) ∧
      s'.faces = s.faces ∧
      s'.people.length = s.people.length + 1 ∧
      s'.profilePictures.length = s.profilePictures.length + 1 ∧
      s'.items = s.items ∧ s'.mediaMetas = s.mediaMetas ∧
      s'.personStorageItems = s.personStorageItems := by
  unfold V2.createFace
  rw [hbb, hitem, hp]
  simp only [V2.findOrCreatePerson, V2.createPerson, V2.createProfilePicture,
    V2.faceCreate, V2.faceCreateDataHasUser, hk, hu, Bool.not_true,
    Bool.false_eq_true, if_false]
  exact ⟨_, rfl, rfl, by simp, by simp, rfl, rfl, rfl⟩

/-- C2 amended: in a faces batch `[f1, bad, f3]` whose middle entry lacks a
bounding box, the other entries' promises still run to their own failure —
their person and profile-picture inserts persist — but no `face_detections`
row is created for any entry (`prisma.face.create` never supplies the
schema's required `userId`), and the malformed entry's synchronous rejection
is the one `Promise.all` surfaces and `processEnrichment` rethrows: the
callback result is the error, forwarded by the handler to the error
middleware instead of a success response, and `processedAt` is never
stamped. -/
theorem claim2_amended_batch_rethrows_after_effects (s : V2.Store) (itemId now : Nat)
    (it : V2.StorageItem) (f1 fbad f3 : V2.FaceIn) (k1 u1 k3 u3 : String)
    (hitem : V2.findItem s itemId = some it)
    (h1bb : jsTruthy f1.boundingBox = true) (h1p : f1.personId = none)
    (h1k : f1.profileS3Key = some k1) (h1u : f1.profileS3Url = some u1)
    (hbadbb : jsTruthy fbad.boundingBox = false)
    (h3bb : jsTruthy f3.boundingBox = true) (h3p : f3.personId = none)
    (h3k : f3.profileS3Key = some k3) (h3u : f3.profileS3Url = some u3) :
    ((V2.processEnrichment itemId { mediaMeta := none, faces := some [f1, fbad, f3] } now s).2
        = .error "Invalid face data, need bounding box") ∧
    ((V2.processEnrichment itemId { mediaMeta := none, faces := some [f1, fbad, f3] } now s).1.faces
        = s.faces) ∧
    ((V2.processEnrichment itemId { mediaMeta := none, faces := some [f1, fbad, f3] } now s).1.people.length
        = s.people.length + 2) ∧
    ((V2.processEnrichment itemId { mediaMeta := none, faces := some [f1, fbad, f3] } now s).1.profilePictures.length
        = s.profilePictures.length + 2) ∧
    ((V2.processEnrichment itemId { mediaMeta := none, faces := some [f1, fbad, f3] } now s).1.items
        = s.items) ∧
    ((V2.processEnrichmentHandler itemId { mediaMeta := none, faces := some [f1, fbad, f3] } now s).2
        = .passedToErrorHandler "Invalid face data, need bounding box") := by
  obtain ⟨sA, eA, fA, pA, ppA, iA, mA, lA⟩ :=
    createFace_no_face_row f1 itemId s it k1 u1 h1bb h1p h1k h1u hitem
  have hitemA : V2.findItem sA itemId = some it := by
    unfold V2.findItem at hitem ⊢
    rw [iA]
    exact hitem
  obtain ⟨sB, eB, fB, pB, ppB, iB, mB, lB⟩ :=
    createFace_no_face_row f3 itemId sA it k3 u3 h3bb h3p h3k h3u hitemA
  have hfold : V2.processFacesList [f1, fbad, f3] itemId s
      = (sB, some "Invalid face data, need bounding box") := by
    unfold V2.processFacesList
    rw [List.foldl_cons, List.foldl_cons, List.foldl_cons, List.foldl_nil]
    rw [eA]
    rw [createFace_missing_bb fbad itemId sA hbadbb]
    rw [eB]
    rfl
  have e : V2.processEnrichment itemId { mediaMeta := none, faces := some [f1, fbad, f3] } now s
      = (sB, .error "Invalid face data, need bounding box") := by
    unfold V2.processEnrichment V2.getStorageItemById
    rw [hitem]
    simp only [List.isEmpty_cons, Bool.false_eq_true, if_false, hfold]
  refine ⟨by rw [e], ?_, ?_, ?_, ?_, ?_⟩
  · rw [e]
    show sB.faces = s.faces
    rw [fB, fA]
  · rw [e]
    show sB.people.length = s.people.length + 2
    rw [pB, pA]
  · rw [e]
    show sB.profilePictures.length = s.profilePictures.length + 2
    rw [ppB, ppA]
  · rw [e]
    show sB.items = s.items
    rw [iB, iA]
  · unfold V2.processEnrichmentHandler
    rw [e]

/-- Witness for C2 amended at `sampleStore` with the concrete batch. -/
theorem claim2_amended_witness :
    ((V2.processEnrichment 1 { mediaMeta := none, faces := some [faceR1, faceBad, faceR3] } 42
        sampleStore).2 = .error "Invalid face data, need bounding box") ∧
    ((V2.processEnrichment 1 { mediaMeta := none, faces := some [faceR1, faceBad, faceR3] } 42
        sampleStore).1.faces = sampleStore.faces) ∧
    ((V2.processEnrichment 1 { mediaMeta := none, faces := some [faceR1, faceBad, faceR3] } 42
        sampleStore).1.people.length = sampleStore.people.length + 2) ∧
    ((V2.processEnrichment 1 { mediaMeta := none, faces := some [faceR1, faceBad, faceR3] } 42
        sampleStore).1.profilePictures.length = sampleStore.profilePictures.length + 2) ∧
    ((V2.processEnrichment 1 { mediaMeta := none, faces := some [faceR1, faceBad, faceR3] } 42
        sampleStore).1.items = sampleStore.items) ∧
    ((V2.processEnrichmentHandler 1 { mediaMeta := none, faces := some [faceR1, faceBad, faceR3] } 42
        sampleStore).2 = .passedToErrorHandler "Invalid face data, need bounding box") :=
  claim2_amended_batch_rethrows_after_effects sampleStore 1 42 sampleItem
    faceR1 faceBad faceR3 "pp/a.jpg" "https://cdn/pp/a.jpg" "pp/b.jpg" "https://cdn/pp/b.jpg"
    rfl rfl rfl rfl rfl rfl rfl rfl rfl rfl

/-- C4 counterexample: the current resolver (`findOrCreatePerson` with the
`(personId, name, ...)` signature) creates a brand-new person when no
`personId` is supplied — here with profile refs supplied, so the
unconditional profile-picture insert also succeeds and the call returns
normally — even though a person with the exact name "Alice" already exists:
no name or alias search precedes the creation. -/
theorem claim4_counterexample_no_search_before_create :
    (aliceStore.people.length = 1) ∧
    (aliceStore.people.any (fun p => p.name == some "Alice") = true) ∧
    ((V2.findOrCreatePerson none (some "Alice") none none none
        (some "pp/alice.jpg") (some "https://cdn/pp/alice.jpg") (some 7)
        aliceStore).2
      = .ok (some ({ id := 50, name := some "Alice", gender := none, age := none,
                     type := "PERSON" } : V2.Person))) ∧
    ((V2.findOrCreatePerson none (some "Alice") none none none
        (some "pp/alice.jpg") (some "https://cdn/pp/alice.jpg") (some 7)
        aliceStore).1.people.length = 2) :=
  ⟨rfl, rfl, rfl, rfl⟩

/-- C4 amended: the legacy name-based resolver does search by exact
case-insensitive name or alias membership before creating: on a match it
adds no person row, returns the matched person's id, and appends exactly the
not-already-present aliases (no duplicates when the inputs are
duplicate-free); with no match it appends the new person. -/
theorem claim4_amended_legacy_resolver (s : PersonService.Store) (name : String)
    (aliases : List String) :
    (∀ p, PersonService.findPersonByNameOrAlias s name = some p →
       ((PersonService.findOrCreatePerson name aliases s).1.people.length
           = s.people.length ∧
        (PersonService.findOrCreatePerson name aliases s).2.id = p.id ∧
        (PersonService.findOrCreatePerson name aliases s).2.aliases
            = p.aliases ++ aliases.filter (fun a => !p.aliases.contains a) ∧
        (p.aliases.Nodup → aliases.Nodup →
          ((PersonService.findOrCreatePerson name aliases s).2.aliases).Nodup))) ∧
    (PersonService.findPersonByNameOrAlias s name = none →
       (PersonService.findOrCreatePerson name aliases s).1.people
          = s.people ++ [(PersonService.findOrCreatePerson name aliases s).2]) := by
  constructor
  · intro p hp
    unfold PersonService.findOrCreatePerson
    rw [hp]
    by_cases hE : aliases.isEmpty
    · have hnil : aliases = [] := List.isEmpty_iff.mp hE
      subst hnil
      simp
    · by_cases hN : (aliases.filter (fun a => !p.aliases.contains a)).isEmpty
      · have hfil : aliases.filter (fun a => !p.aliases.contains a) = [] :=
          List.isEmpty_iff.mp hN
      
        simp only [hE, if_false, hfil, List.isEmpty_nil, if_true, List.append_nil]
        exact ⟨rfl, rfl, rfl, fun hnp _ => hnp⟩
      · simp only [hE, if_false, hN]
        refine ⟨by simp, rfl, rfl, ?_⟩
        intro hnp hna
        refine List.Nodup.append hnp (hna.filter _) ?_
        intro a ha hafil
        have := (List.mem_filter.mp hafil).2
        simp only [Bool.not_eq_true'] at this
        exact absurd ha (by simpa using this)
  · intro hnone
    unfold PersonService.findOrCreatePerson
    rw [hnone]

/-- Witness for C4 amended: resolving "ALICE" against a store holding
"alice" with alias "Al" merges only the genuinely new alias. -/
theorem claim4_amended_witness :
    ((PersonService.findOrCreatePerson "ALICE" ["Ally", "Al"] legacyStore).1.people.length
        = legacyStore.people.length) ∧
    ((PersonService.findOrCreatePerson "ALICE" ["Ally", "Al"] legacyStore).2.aliases
        = ["Al", "Ally"]) ∧
    ((PersonService.findOrCreatePerson "ALICE" ["Ally", "Al"] legacyStore).2.aliases).Nodup := by
  have h := (claim4_amended_legacy_resolver legacyStore "ALICE" ["Ally", "Al"]).1
    legacyAlice (by decide)
  obtain ⟨h1, _, h3, h4⟩ := h
  refine ⟨h1, ?_, h4 (by decide) (by decide)⟩
  rw [h3]
  rfl


/-- C7: the global sweep keeps a person iff some `person_storage_items` row
references them (so it deletes exactly the zero-link people), and the scoped
variant deletes exactly the candidate-list people whose zero-link predicate
holds at delete time — a person with any remaining link for any user
survives both. -/
theorem claim7_cleanup_deletes_exactly_orphans (s : V2.Store) :
    (∀ p ∈ s.people,
       (p ∈ (V2.cleanupOrphanedPeople s).1.people ↔
         ∃ l ∈ s.personStorageItems, l.personId = p.id)) ∧
    (∀ ids uid s' deleted,
       V2.cleanupAfterStorageItemRemoval ids (some uid) s = .ok (s', deleted) →
       ∀ p ∈ s.people,
         (p ∈ s'.people ↔
           (p.id ∉ ids ∨ ∃ l ∈ s.personStorageItems, l.personId = p.id))) := by
  have hlink : ∀ p : V2.Person,
      (s.personStorageItems.any (fun l => l.personId == p.id) = true) ↔
        (∃ l ∈ s.personStorageItems, l.personId = p.id) := by
    intro p
    simp [List.any_eq_true]
  constructor
  · intro p hp
    unfold V2.cleanupOrphanedPeople
    simp only [List.mem_filter]
    constructor
    · intro h
      exact (hlink p).mp h.2
    · intro h
      exact ⟨hp, (hlink p).mpr h⟩
  · intro ids uid s' deleted h p hp
    by_cases hids : ids.isEmpty
    · have hnil : ids = [] := List.isEmpty_iff.mp hids
      subst hnil
      unfold V2.cleanupAfterStorageItemRemoval at h
      simp only [List.isEmpty_nil, if_true, Except.ok.injEq, Prod.mk.injEq] at h
      obtain ⟨hs, -⟩ := h
      subst hs
      simp [hp]
    · have hids' : ids.isEmpty = false := by simpa using hids
      unfold V2.cleanupAfterStorageItemRemoval at h
      simp only [hids', Bool.false_eq_true, if_false] at h
      by_cases horph : (s.people.filter (fun q =>
          ids.contains q.id &&
          !s.personStorageItems.any (fun l => l.personId == q.id))).isEmpty
      · simp only [horph, if_true, Except.ok.injEq, Prod.mk.injEq] at h
        obtain ⟨hs, -⟩ := h
        subst hs
        simp only [hp, true_iff]
        by_cases hA : s.personStorageItems.any (fun l => l.personId == p.id) = true
        · exact Or.inr ((hlink p).mp hA)
        · left
          intro hin
          have hA' : s.personStorageItems.any (fun l => l.personId == p.id) = false := by
            simpa using hA
          have hmem : p ∈ s.people.filter (fun q =>
              ids.contains q.id &&
              !s.personStorageItems.any (fun l => l.personId == q.id)) := by
            rw [List.mem_filter]
            exact ⟨hp, by simp [hA', hin]⟩
          rw [List.isEmpty_iff.mp horph] at hmem
          exact absurd hmem (List.not_mem_nil p)
      · have horph' : (s.people.filter (fun q =>
            ids.contains q.id &&
            !s.personStorageItems.any (fun l => l.personId == q.id))).isEmpty = false := by
          simpa using horph
        simp only [horph', Bool.false_eq_true, if_false, Except.ok.injEq,
          Prod.mk.injEq] at h
        obtain ⟨hs, -⟩ := h
        subst hs
        rw [List.mem_filter]
        simp only [hp, true_and]
        by_cases hA : s.personStorageItems.any (fun l => l.personId == p.id) = true
        · simp [hA, (hlink p).mp hA]
        · have hA' : s.personStorageItems.any (fun l => l.personId == p.id) = false := by
            simpa using hA
          have hnoex : ¬ ∃ l ∈ s.personStorageItems, l.personId = p.id :=
            fun hx => hA ((hlink p).mpr hx)
          have hiff : (((s.people.filter (fun q =>
              ids.contains q.id &&
              !s.personStorageItems.any (fun l => l.personId == q.id))).map
                (fun q => q.id)).contains p.id = true) ↔ p.id ∈ ids := by
            constructor
            · intro hc
              obtain ⟨q, hq, hqid⟩ := List.mem_map.mp (List.mem_of_elem_eq_true hc)
              have h2 := (List.mem_filter.mp hq).2
              rw [Bool.and_eq_true] at h2
              have hqin : q.id ∈ ids := List.mem_of_elem_eq_true h2.1
              rwa [hqid] at hqin
            · intro hin
              apply List.elem_eq_true_of_mem
              apply List.mem_map.mpr
              refine ⟨p, ?_, rfl⟩
              rw [List.mem_filter]
              exact ⟨hp, by simp [hA', hin]⟩
          simp only [hnoex, or_false, hA', Bool.not_false, Bool.and_true,
            Bool.not_eq_true']
          constructor
          · intro hc hin
            have := hiff.mpr hin
            rw [hc] at this
            exact Bool.noConfusion this
          · intro hnin
            rw [Bool.eq_false_iff]
            intro hcontra
            exact hnin (hiff.mp hcontra)

/-- Witness for C7: in `cleanupStore` the global sweep keeps the linked
person and deletes the orphan; the scoped variant over candidates `[1, 2]`
does the same. -/
theorem claim7_witness :
    (pLinked ∈ (V2.cleanupOrphanedPeople cleanupStore).1.people) ∧
    (pOrphan ∉ (V2.cleanupOrphanedPeople cleanupStore).1.people) ∧
    (∀ s' deleted,
      V2.cleanupAfterStorageItemRemoval [1, 2] (some 7) cleanupStore = .ok (s', deleted) →
      pLinked ∈ s'.people ∧ pOrphan ∉ s'.people) := by
  obtain ⟨hg, hs⟩ := claim7_cleanup_deletes_exactly_orphans cleanupStore
  refine ⟨?_, ?_, ?_⟩
  · exact (hg pLinked (by decide)).mpr
      ⟨{ personId := 1, storageItemId := 9, userId := 7 }, by decide, by decide⟩
  · intro hmem
    have := (hg pOrphan (by decide)).mp hmem
    revert this
    decide
  · intro s' deleted h
    constructor
    · exact (hs [1, 2] 7 s' deleted h pLinked (by decide)).mpr
        (Or.inr ⟨{ personId := 1, storageItemId := 9, userId := 7 }, by decide, by decide⟩)
    · intro hmem
      have := (hs [1, 2] 7 s' deleted h pOrphan (by decide)).mp hmem
      revert this
      decide

/-- C9: for a file-based item, if the storage-object removal step fails, the
error propagates out of `deleteStorageItem` and the store — the item row and
all dependent rows — is unchanged. -/
theorem claim9_storage_failure_blocks_delete (s : V2.Store) (id userId : Nat)
    (extractKey : String → Option String) (deleteFile : String → Except String Unit)
    (it : V2.StorageItem) (k e : String)
    (hitem : V2.findItem s id = some it) (howner : it.userId = userId)
    (htype : (["PHOTO", "VIDEO", "AUDIO", "DOCUMENT"].contains it.type) = true)
    (huri : (it.uri != "") = true)
    (hkey : extractKey it.uri = some k) (hfail : deleteFile k = .error e) :
    V2.deleteStorageItem extractKey deleteFile id userId s = (s, .error e) := by
  unfold V2.deleteStorageItem
  rw [hitem]
  simp only [howner, bne_self_eq_false, Bool.false_eq_true, if_false, htype, huri,
    Bool.and_self, if_true, hkey, hfail]
  rfl

/-- Witness for C9: deleting `sampleItem` while the S3 delete fails returns
the error and leaves `sampleStore` untouched. -/
theorem claim9_witness :
    V2.deleteStorageItem (fun u => some u) (fun _ => .error "S3 delete failed") 1 7 sampleStore
      = (sampleStore, .error "S3 delete failed") :=
  claim9_storage_failure_blocks_delete sampleStore 1 7 (fun u => some u)
    (fun _ => .error "S3 delete failed") sampleItem sampleItem.uri "S3 delete failed"
    rfl rfl (by decide) (by decide) rfl rfl

/-- `MetaFrame` is reflexive. -/
theorem metaFrame_rfl (s : SIS.Store) : MetaFrame s s :=
  ⟨rfl, rfl, rfl, rfl, rfl, rfl, rfl, rfl⟩

/-- `MetaFrame` is transitive. -/
theorem metaFrame_trans {s1 s2 s3 : SIS.Store} (h1 : MetaFrame s1 s2)
    (h2 : MetaFrame s2 s3) : MetaFrame s1 s3 := by
  obtain ⟨a1, a2, a3, a4, a5, a6, a7, a8⟩ := h1
  obtain ⟨b1, b2, b3, b4, b5, b6, b7, b8⟩ := h2
  exact ⟨b1.trans a1, b2.trans a2, b3.trans a3, b4.trans a4, b5.trans a5,
    b6.trans a6, b7.trans a7, b8.trans a8⟩

/-- A fold whose step satisfies `MetaFrame` satisfies `MetaFrame`. -/
theorem foldl_metaFrame {α : Type} (step : SIS.Store → α → SIS.Store)
    (h : ∀ s a, MetaFrame s (step s a)) (l : List α) :
    ∀ s, MetaFrame s (l.foldl step s) := by
  induction l with
  | nil => intro s; exact metaFrame_rfl s
  | cons a l ih =>
    intro s
    rw [List.foldl_cons]
    exact metaFrame_trans (h s a) (ih (step s a))

/-- The create-action of the faces branch touches only people/detections. -/
theorem createFaceAction_metaFrame (itemId : Nat) (f : SIS.FaceData) (s : SIS.Store) :
    MetaFrame s (SIS.createFaceAction itemId f s) := by
  unfold SIS.createFaceAction MetaFrame
  cases hpid : f.personId with
  | some pid => simp [hpid]
  | none =>
    simp only [hpid]
    cases hnm : jsStrTruthy f.name with
    | false => simp [hnm]
    | true =>
      simp only [hnm, if_true]
      cases hfind : SIS.findPersonByNameOrAlias s (f.name.getD "") with
      | none => simp [hfind]
      | some p =>
        simp only [hfind]
        cases hal : f.aliases with
        | none => simp [hal]
        | some als =>
          simp only [hal]
          cases hE : als.isEmpty with
          | true => simp [hE]
          | false =>
            simp only [hE, Bool.false_eq_true, if_false]
            cases hN : (List.filter (fun a => !p.aliases.contains a) als).isEmpty with
            | true => simp [hN]
            | false => simp [hN]

/-- The update-action of the faces branch touches only people/detections. -/
theorem updateFaceAction_metaFrame (f : SIS.FaceData) (s : SIS.Store) :
    MetaFrame s (SIS.updateFaceAction f s) := by
  unfold SIS.updateFaceAction MetaFrame
  cases hpid : f.personId with
  | some pid => simp [hpid]
  | none =>
    simp only [hpid]
    cases hnm : jsStrTruthy f.name with
    | false => simp [hnm]
    | true =>
      simp only [hnm, if_true]
      cases hfind : SIS.findPersonByNameOrAlias s (f.name.getD "") with
      | none => simp [hfind]
      | some p => simp [hfind]

/-- The explicit deletions of the faces branch touch only detections. -/
theorem deleteFaceActions_metaFrame (fs : List SIS.FaceData) (s : SIS.Store) :
    MetaFrame s (SIS.deleteFaceActions fs s) := by
  unfold SIS.deleteFaceActions MetaFrame
  cases h : (List.filterMap (fun f => f.detectionId)
      (List.filter (fun f => f.action == some "delete") fs)).isEmpty with
  | true => simp [h]
  | false => simp [h]

/-- The raw-response face path touches only people/detections. -/
theorem processRawFaceResponse_metaFrame (itemId : Nat) (fs : List SIS.FaceData)
    (s : SIS.Store) : MetaFrame s (SIS.processRawFaceResponse itemId fs s) := by
  unfold SIS.processRawFaceResponse
  apply foldl_metaFrame
  intro s f
  cases hraw : f.rawResponse with
  | none => simp only [hraw]; exact metaFrame_rfl s
  | some r =>
    simp only [hraw]
    cases hf : r.falsy with
    | true => simp only [hf, if_true]; exact metaFrame_rfl s
    | false =>
      simp only [hf, Bool.false_eq_true, if_false]
      cases hcel : ((f.isCelebrity).getD false && jsStrTruthy f.name) with
      | true =>
        simp only [hcel, if_true]
        cases hfind : s.people.find? (fun p =>
            p.name == some ((f.name).getD "") && p.isCelebrity) with
        | some p => simp [hfind, MetaFrame]
        | none => simp [hfind, MetaFrame]
      | false =>
        simp only [hcel, Bool.false_eq_true, if_false]
        cases hpid : f.personId with
        | some pid => simp [hpid, MetaFrame]
        | none => simp only [hpid]; exact metaFrame_rfl s

/-- The whole faces branch touches only people/detections. -/
theorem facesStep_metaFrame (d : SIS.EnrichData) (itemId : Nat) (s : SIS.Store) :
    MetaFrame s (SIS.facesStep d itemId s) := by
  unfold SIS.facesStep
  cases hfs : d.faces with
  | none => simp only [hfs]; exact metaFrame_rfl s
  | some fs =>
    simp only [hfs]
    cases hE : fs.isEmpty with
    | true => simp only [hE, if_true]; exact metaFrame_rfl s
    | false =>
      simp only [hE, Bool.false_eq_true, if_false]
      cases hraw : jsTruthy (match fs.head? with
          | some f0 => f0.rawResponse
          | none => none) with
      | true =>
        simp only [hraw, if_true]
        exact processRawFaceResponse_metaFrame itemId fs s
      | false =>
        simp only [hraw, Bool.false_eq_true, if_false]
        refine metaFrame_trans ?_ (deleteFaceActions_metaFrame fs _)
        apply foldl_metaFrame
        intro s' f
        cases ha : (f.action == some "create") with
        | true => simp only [ha, if_true]; exact createFaceAction_metaFrame itemId f s'
        | false =>
          simp only [ha, Bool.false_eq_true, if_false]
          cases hb : (f.action == some "update" && (f.detectionId).isSome) with
          | true => simp only [hb, if_true]; exact updateFaceAction_metaFrame f s'
          | false => simp only [hb, Bool.false_eq_true, if_false]; exact metaFrame_rfl s'


/-- The geo block leaves every other category's table and recorded link,
and the item table, unchanged; ids only grow. -/
theorem geoStep_other (d : SIS.EnrichData) (it : SIS.StorageItem)
    (su : SIS.Store × SIS.Updates) (c : MetaCat) (hc : c ≠ MetaCat.geo) :
    catTableIds (SIS.geoStep d it su).1 c = catTableIds su.1 c ∧
    updLink (SIS.geoStep d it su).2 c = updLink su.2 c ∧
    (SIS.geoStep d it su).1.items = su.1.items ∧
    su.1.nextId ≤ (SIS.geoStep d it su).1.nextId := by
  unfold SIS.geoStep
  cases hg : d.geoData with
  | none => exact ⟨rfl, rfl, rfl, le_refl _⟩
  | some g =>
    simp only [hg]
    cases hl : it.geoMetaId with
    | some gid =>
      simp only [hl]
      refine ⟨?_, ?_, ?_, ?_⟩ <;>
        first
          | (cases c <;> first | exact absurd rfl hc | rfl)
          | trivial
          | simp
    | none =>
      simp only [hl]
      refine ⟨?_, ?_, ?_, ?_⟩ <;>
        first
          | (cases c <;> first | exact absurd rfl hc | rfl)
          | trivial
          | simp

/-- The geo block creates-and-links a fresh row when there is no link, and
updates the linked row in place (same id, same table ids) otherwise. -/
theorem geoStep_action (d : SIS.EnrichData) (it : SIS.StorageItem)
    (su : SIS.Store × SIS.Updates) (g : SIS.GeoData) (hd : d.geoData = some g) :
    (it.geoMetaId = none →
      catTableIds (SIS.geoStep d it su).1 MetaCat.geo
          = catTableIds su.1 MetaCat.geo ++ [su.1.nextId] ∧
      updLink (SIS.geoStep d it su).2 MetaCat.geo = some su.1.nextId) ∧
    (∀ i0, it.geoMetaId = some i0 →
      catTableIds (SIS.geoStep d it su).1 MetaCat.geo
          = catTableIds su.1 MetaCat.geo ∧
      updLink (SIS.geoStep d it su).2 MetaCat.geo = some i0) := by
  unfold SIS.geoStep
  simp only [hd]
  constructor
  · intro hnone
    simp only [hnone]
    constructor
    · unfold catTableIds
      simp
    · rfl
  · intro i0 hsome
    simp only [hsome]
    constructor
    · unfold catTableIds
      rw [List.map_map]
      apply List.map_congr_left
      intro r _
      by_cases h : r.id = i0 <;> simp [h]
    · rfl

/-- The ocr block leaves every other category's table and recorded link,
and the item table, unchanged; ids only grow. -/
theorem ocrStep_other (d : SIS.EnrichData) (it : SIS.StorageItem)
    (su : SIS.Store × SIS.Updates) (c : MetaCat) (hc : c ≠ MetaCat.ocr) :
    catTableIds (SIS.ocrStep d it su).1 c = catTableIds su.1 c ∧
    updLink (SIS.ocrStep d it su).2 c = updLink su.2 c ∧
    (SIS.ocrStep d it su).1.items = su.1.items ∧
    su.1.nextId ≤ (SIS.ocrStep d it su).1.nextId := by
  unfold SIS.ocrStep
  cases hg : d.ocrData with
  | none => exact ⟨rfl, rfl, rfl, le_refl _⟩
  | some o =>
    simp only [hg]
    cases hl : it.ocrMetaId with
    | some gid =>
      simp only [hl]
      refine ⟨?_, ?_, ?_, ?_⟩ <;>
        first
          | (cases c <;> first | exact absurd rfl hc | rfl)
          | trivial
          | simp
    | none =>
      simp only [hl]
      refine ⟨?_, ?_, ?_, ?_⟩ <;>
        first
          | (cases c <;> first | exact absurd rfl hc | rfl)
          | trivial
          | simp

/-- The ocr block creates-and-links a fresh row when there is no link, and
updates the linked row in place (same id, same table ids) otherwise. -/
theorem ocrStep_action (d : SIS.EnrichData) (it : SIS.StorageItem)
    (su : SIS.Store × SIS.Updates) (o : SIS.OcrData) (hd : d.ocrData = some o) :
    (it.ocrMetaId = none →
      catTableIds (SIS.ocrStep d it su).1 MetaCat.ocr
          = catTableIds su.1 MetaCat.ocr ++ [su.1.nextId] ∧
      updLink (SIS.ocrStep d it su).2 MetaCat.ocr = some su.1.nextId) ∧
    (∀ i0, it.ocrMetaId = some i0 →
      catTableIds (SIS.ocrStep d it su).1 MetaCat.ocr
          = catTableIds su.1 MetaCat.ocr ∧
      updLink (SIS.ocrStep d it su).2 MetaCat.ocr = some i0) := by
  unfold SIS.ocrStep
  simp only [hd]
  constructor
  · intro hnone
    simp only [hnone]
    constructor
    · unfold catTableIds
      simp
    · rfl
  · intro i0 hsome
    simp only [hsome]
    constructor
    · unfold catTableIds
      rw [List.map_map]
      apply List.map_congr_left
      intro r _
      by_cases h : r.id = i0 <;> simp [h]
    · rfl

/-- The transcript block leaves every other category's table and recorded link,
and the item table, unchanged; ids only grow. -/
theorem transcriptStep_other (d : SIS.EnrichData) (it : SIS.StorageItem)
    (su : SIS.Store × SIS.Updates) (c : MetaCat) (hc : c ≠ MetaCat.transcript) :
    catTableIds (SIS.transcriptStep d it su).1 c = catTableIds su.1 c ∧
    updLink (SIS.transcriptStep d it su).2 c = updLink su.2 c ∧
    (SIS.transcriptStep d it su).1.items = su.1.items ∧
    su.1.nextId ≤ (SIS.transcriptStep d it su).1.nextId := by
  unfold SIS.transcriptStep
  cases hg : d.transcriptData with
  | none => exact ⟨rfl, rfl, rfl, le_refl _⟩
  | some t =>
    simp only [hg]
    cases hl : it.transcriptMetaId with
    | some gid =>
      simp only [hl]
      refine ⟨?_, ?_, ?_, ?_⟩ <;>
        first
          | (cases c <;> first | exact absurd rfl hc | rfl)
          | trivial
          | simp
    | none =>
      simp only [hl]
      refine ⟨?_, ?_, ?_, ?_⟩ <;>
        first
          | (cases c <;> first | exact absurd rfl hc | rfl)
          | trivial
          | simp

/-- The transcript block creates-and-links a fresh row when there is no link, and
updates the linked row in place (same id, same table ids) otherwise. -/
theorem transcriptStep_action (d : SIS.EnrichData) (it : SIS.StorageItem)
    (su : SIS.Store × SIS.Updates) (t : SIS.TranscriptData) (hd : d.transcriptData = some t) :
    (it.transcriptMetaId = none →
      catTableIds (SIS.transcriptStep d it su).1 MetaCat.transcript
          = catTableIds su.1 MetaCat.transcript ++ [su.1.nextId] ∧
      updLink (SIS.transcriptStep d it su).2 MetaCat.transcript = some su.1.nextId) ∧
    (∀ i0, it.transcriptMetaId = some i0 →
      catTableIds (SIS.transcriptStep d it su).1 MetaCat.transcript
          = catTableIds su.1 MetaCat.transcript ∧
      updLink (SIS.transcriptStep d it su).2 MetaCat.transcript = some i0) := by
  unfold SIS.transcriptStep
  simp only [hd]
  constructor
  · intro hnone
    simp only [hnone]
    constructor
    · unfold catTableIds
      simp
    · rfl
  · intro i0 hsome
    simp only [hsome]
    constructor
    · unfold catTableIds
      rw [List.map_map]
      apply List.map_congr_left
      intro r _
      by_cases h : r.id = i0 <;> simp [h]
    · rfl

/-- The keyword block leaves every other category's table and recorded link,
and the item table, unchanged; ids only grow. -/
theorem keywordStep_other (d : SIS.EnrichData) (it : SIS.StorageItem)
    (su : SIS.Store × SIS.Updates) (c : MetaCat) (hc : c ≠ MetaCat.keyword) :
    catTableIds (SIS.keywordStep d it su).1 c = catTableIds su.1 c ∧
    updLink (SIS.keywordStep d it su).2 c = updLink su.2 c ∧
    (SIS.keywordStep d it su).1.items = su.1.items ∧
    su.1.nextId ≤ (SIS.keywordStep d it su).1.nextId := by
  unfold SIS.keywordStep
  cases hg : d.keywords with
  | none => exact ⟨rfl, rfl, rfl, le_refl _⟩
  | some kw =>
    simp only [hg]
    cases hfl : kw.falsy with
    | true => simp [hfl]
    | false =>
      simp only [hfl, Bool.false_eq_true, if_false]
      cases hl : it.keywordMetaId with
      | some gid =>
        simp only [hl]
        refine ⟨?_, ?_, ?_, ?_⟩ <;>
        first
          | (cases c <;> first | exact absurd rfl hc | rfl)
          | trivial
          | simp
      | none =>
        simp only [hl]
        refine ⟨?_, ?_, ?_, ?_⟩ <;>
        first
          | (cases c <;> first | exact absurd rfl hc | rfl)
          | trivial
          | simp

/-- The keyword block creates-and-links a fresh row when there is no link, and
updates the linked row in place (same id, same table ids) otherwise. -/
theorem keywordStep_action (d : SIS.EnrichData) (it : SIS.StorageItem)
    (su : SIS.Store × SIS.Updates) (kw : Json) (hd : d.keywords = some kw) (hfl : kw.falsy = false) :
    (it.keywordMetaId = none →
      catTableIds (SIS.keywordStep d it su).1 MetaCat.keyword
          = catTableIds su.1 MetaCat.keyword ++ [su.1.nextId] ∧
      updLink (SIS.keywordStep d it su).2 MetaCat.keyword = some su.1.nextId) ∧
    (∀ i0, it.keywordMetaId = some i0 →
      catTableIds (SIS.keywordStep d it su).1 MetaCat.keyword
          = catTableIds su.1 MetaCat.keyword ∧
      updLink (SIS.keywordStep d it su).2 MetaCat.keyword = some i0) := by
  unfold SIS.keywordStep
  simp only [hd]
  simp only [hfl, Bool.false_eq_true, if_false]
  constructor
  · intro hnone
    simp only [hnone]
    constructor
    · unfold catTableIds
      simp
    · rfl
  · intro i0 hsome
    simp only [hsome]
    constructor
    · unfold catTableIds
      rw [List.map_map]
      apply List.map_congr_left
      intro r _
      by_cases h : r.id = i0 <;> simp [h]
    · rfl

/-- The label block leaves every other category's table and recorded link,
and the item table, unchanged; ids only grow. -/
theorem labelStep_other (d : SIS.EnrichData) (it : SIS.StorageItem)
    (su : SIS.Store × SIS.Updates) (c : MetaCat) (hc : c ≠ MetaCat.label) :
    catTableIds (SIS.labelStep d it su).1 c = catTableIds su.1 c ∧
    updLink (SIS.labelStep d it su).2 c = updLink su.2 c ∧
    (SIS.labelStep d it su).1.items = su.1.items ∧
    su.1.nextId ≤ (SIS.labelStep d it su).1.nextId := by
  unfold SIS.labelStep
  cases hg : d.labelData with
  | none => exact ⟨rfl, rfl, rfl, le_refl _⟩
  | some ld =>
    simp only [hg]
    cases hgu : (jsTruthy ld.labels || jsTruthy ld.rawResponse) with
    | false => simp [hgu]
    | true =>
      simp only [hgu, Bool.not_true, Bool.false_eq_true, if_false]
      cases hl : it.labelMetaId with
      | some gid =>
        simp only [hl]
        refine ⟨?_, ?_, ?_, ?_⟩ <;>
        first
          | (cases c <;> first | exact absurd rfl hc | rfl)
          | trivial
          | simp
      | none =>
        simp only [hl]
        refine ⟨?_, ?_, ?_, ?_⟩ <;>
        first
          | (cases c <;> first | exact absurd rfl hc | rfl)
          | trivial
          | simp

/-- The label block creates-and-links a fresh row when there is no link, and
updates the linked row in place (same id, same table ids) otherwise. -/
theorem labelStep_action (d : SIS.EnrichData) (it : SIS.StorageItem)
    (su : SIS.Store × SIS.Updates) (ld : SIS.LabelData) (hd : d.labelData = some ld) (hgu : (jsTruthy ld.labels || jsTruthy ld.rawResponse) = true) :
    (it.labelMetaId = none →
      catTableIds (SIS.labelStep d it su).1 MetaCat.label
          = catTableIds su.1 MetaCat.label ++ [su.1.nextId] ∧
      updLink (SIS.labelStep d it su).2 MetaCat.label = some su.1.nextId) ∧
    (∀ i0, it.labelMetaId = some i0 →
      catTableIds (SIS.labelStep d it su).1 MetaCat.label
          = catTableIds su.1 MetaCat.label ∧
      updLink (SIS.labelStep d it su).2 MetaCat.label = some i0) := by
  unfold SIS.labelStep
  simp only [hd]
  simp only [hgu, Bool.not_true, Bool.false_eq_true, if_false]
  constructor
  · intro hnone
    simp only [hnone]
    constructor
    · unfold catTableIds
      simp
    · rfl
  · intro i0 hsome
    simp only [hsome]
    constructor
    · unfold catTableIds
      rw [List.map_map]
      apply List.map_congr_left
      intro r _
      by_cases h : r.id = i0 <;> simp [h]
    · rfl

/-- The customLabel block leaves every other category's table and recorded link,
and the item table, unchanged; ids only grow. -/
theorem customLabelStep_other (d : SIS.EnrichData) (it : SIS.StorageItem)
    (su : SIS.Store × SIS.Updates) (c : MetaCat) (hc : c ≠ MetaCat.customLabel) :
    catTableIds (SIS.customLabelStep d it su).1 c = catTableIds su.1 c ∧
    updLink (SIS.customLabelStep d it su).2 c = updLink su.2 c ∧
    (SIS.customLabelStep d it su).1.items = su.1.items ∧
    su.1.nextId ≤ (SIS.customLabelStep d it su).1.nextId := by
  unfold SIS.customLabelStep
  cases hg : d.customLabelData with
  | none => exact ⟨rfl, rfl, rfl, le_refl _⟩
  | some cd =>
    simp only [hg]
    cases hgu : (jsTruthy cd.customLabels || jsTruthy cd.rawResponse) with
    | false => simp [hgu]
    | true =>
      simp only [hgu, Bool.not_true, Bool.false_eq_true, if_false]
      cases hl : it.customLabelMetaId with
      | some gid =>
        simp only [hl]
        refine ⟨?_, ?_, ?_, ?_⟩ <;>
        first
          | (cases c <;> first | exact absurd rfl hc | rfl)
          | trivial
          | simp
      | none =>
        simp only [hl]
        refine ⟨?_, ?_, ?_, ?_⟩ <;>
        first
          | (cases c <;> first | exact absurd rfl hc | rfl)
          | trivial
          | simp

/-- The customLabel block creates-and-links a fresh row when there is no link, and
updates the linked row in place (same id, same table ids) otherwise. -/
theorem customLabelStep_action (d : SIS.EnrichData) (it : SIS.StorageItem)
    (su : SIS.Store × SIS.Updates) (cd : SIS.CustomLabelData) (hd : d.customLabelData = some cd) (hgu : (jsTruthy cd.customLabels || jsTruthy cd.rawResponse) = true) :
    (it.customLabelMetaId = none →
      catTableIds (SIS.customLabelStep d it su).1 MetaCat.customLabel
          = catTableIds su.1 MetaCat.customLabel ++ [su.1.nextId] ∧
      updLink (SIS.customLabelStep d it su).2 MetaCat.customLabel = some su.1.nextId) ∧
    (∀ i0, it.customLabelMetaId = some i0 →
      catTableIds (SIS.customLabelStep d it su).1 MetaCat.customLabel
          = catTableIds su.1 MetaCat.customLabel ∧
      updLink (SIS.customLabelStep d it su).2 MetaCat.customLabel = some i0) := by
  unfold SIS.customLabelStep
  simp only [hd]
  simp only [hgu, Bool.not_true, Bool.false_eq_true, if_false]
  constructor
  · intro hnone
    simp only [hnone]
    constructor
    · unfold catTableIds
      simp
    · rfl
  · intro i0 hsome
    simp only [hsome]
    constructor
    · unfold catTableIds
      rw [List.map_map]
      apply List.map_congr_left
      intro r _
      by_cases h : r.id = i0 <;> simp [h]
    · rfl

/-- The moderation block leaves every other category's table and recorded link,
and the item table, unchanged; ids only grow. -/
theorem moderationStep_other (d : SIS.EnrichData) (it : SIS.StorageItem)
    (su : SIS.Store × SIS.Updates) (c : MetaCat) (hc : c ≠ MetaCat.moderation) :
    catTableIds (SIS.moderationStep d it su).1 c = catTableIds su.1 c ∧
    updLink (SIS.moderationStep d it su).2 c = updLink su.2 c ∧
    (SIS.moderationStep d it su).1.items = su.1.items ∧
    su.1.nextId ≤ (SIS.moderationStep d it su).1.nextId := by
  unfold SIS.moderationStep
  cases hg : d.moderationData with
  | none => exact ⟨rfl, rfl, rfl, le_refl _⟩
  | some md =>
    simp only [hg]
    cases hgu : (jsTruthy md.moderationLabels || jsTruthy md.rawResponse) with
    | false => simp [hgu]
    | true =>
      simp only [hgu, Bool.not_true, Bool.false_eq_true, if_false]
      cases hl : it.contentModerationMetaId with
      | some gid =>
        simp only [hl]
        refine ⟨?_, ?_, ?_, ?_⟩ <;>
        first
          | (cases c <;> first | exact absurd rfl hc | rfl)
          | trivial
          | simp
      | none =>
        simp only [hl]
        refine ⟨?_, ?_, ?_, ?_⟩ <;>
        first
          | (cases c <;> first | exact absurd rfl hc | rfl)
          | trivial
          | simp

/-- The moderation block creates-and-links a fresh row when there is no link, and
updates the linked row in place (same id, same table ids) otherwise. -/
theorem moderationStep_action (d : SIS.EnrichData) (it : SIS.StorageItem)
    (su : SIS.Store × SIS.Updates) (md : SIS.ModerationData) (hd : d.moderationData = some md) (hgu : (jsTruthy md.moderationLabels || jsTruthy md.rawResponse) = true) :
    (it.contentModerationMetaId = none →
      catTableIds (SIS.moderationStep d it su).1 MetaCat.moderation
          = catTableIds su.1 MetaCat.moderation ++ [su.1.nextId] ∧
      updLink (SIS.moderationStep d it su).2 MetaCat.moderation = some su.1.nextId) ∧
    (∀ i0, it.contentModerationMetaId = some i0 →
      catTableIds (SIS.moderationStep d it su).1 MetaCat.moderation
          = catTableIds su.1 MetaCat.moderation ∧
      updLink (SIS.moderationStep d it su).2 MetaCat.moderation = some i0) := by
  unfold SIS.moderationStep
  simp only [hd]
  simp only [hgu, Bool.not_true, Bool.false_eq_true, if_false]
  constructor
  · intro hnone
    simp only [hnone]
    constructor
    · unfold catTableIds
      simp
    · rfl
  · intro i0 hsome
    simp only [hsome]
    constructor
    · unfold catTableIds
      rw [List.map_map]
      apply List.map_congr_left
      intro r _
      by_cases h : r.id = i0 <;> simp [h]
    · rfl

/-- Running the seven category blocks: for the processed category `cat`, a
missing link leads to a fresh created-and-linked row and an existing link to
an in-place update; the item table is untouched. -/
theorem categorySteps_char (d : SIS.EnrichData) (it : SIS.StorageItem) (s : SIS.Store)
    (cat : MetaCat) (hproc : catProcessed d cat = true) :
    (SIS.moderationStep d it (SIS.customLabelStep d it (SIS.labelStep d it (SIS.keywordStep d it (SIS.transcriptStep d it (SIS.ocrStep d it (SIS.geoStep d it (s, SIS.initialUpdates it d)))))))).1.items = s.items ∧
    (catLink it cat = none →
      ∃ n, s.nextId ≤ n ∧
        catTableIds (SIS.moderationStep d it (SIS.customLabelStep d it (SIS.labelStep d it (SIS.keywordStep d it (SIS.transcriptStep d it (SIS.ocrStep d it (SIS.geoStep d it (s, SIS.initialUpdates it d)))))))).1 cat = catTableIds s cat ++ [n] ∧
        updLink (SIS.moderationStep d it (SIS.customLabelStep d it (SIS.labelStep d it (SIS.keywordStep d it (SIS.transcriptStep d it (SIS.ocrStep d it (SIS.geoStep d it (s, SIS.initialUpdates it d)))))))).2 cat = some n) ∧
    (∀ i0, catLink it cat = some i0 →
      catTableIds (SIS.moderationStep d it (SIS.customLabelStep d it (SIS.labelStep d it (SIS.keywordStep d it (SIS.transcriptStep d it (SIS.ocrStep d it (SIS.geoStep d it (s, SIS.initialUpdates it d)))))))).1 cat = catTableIds s cat ∧
      updLink (SIS.moderationStep d it (SIS.customLabelStep d it (SIS.labelStep d it (SIS.keywordStep d it (SIS.transcriptStep d it (SIS.ocrStep d it (SIS.geoStep d it (s, SIS.initialUpdates it d)))))))).2 cat = some i0) := by
  cases cat with
  | geo =>
    have hex : ∃ g, d.geoData = some g := by
      simp only [catProcessed] at hproc
      exact Option.isSome_iff_exists.mp hproc
    obtain ⟨g, hd⟩ := hex
    have A := geoStep_action d it (s, SIS.initialUpdates it d) g hd
    have I1 := (geoStep_other d it (s, SIS.initialUpdates it d) MetaCat.ocr (by decide)).2.2.1
    have F2 := ocrStep_other d it (SIS.geoStep d it (s, SIS.initialUpdates it d)) MetaCat.geo (by decide)
    have F3 := transcriptStep_other d it (SIS.ocrStep d it (SIS.geoStep d it (s, SIS.initialUpdates it d))) MetaCat.geo (by decide)
    have F4 := keywordStep_other d it (SIS.transcriptStep d it (SIS.ocrStep d it (SIS.geoStep d it (s, SIS.initialUpdates it d)))) MetaCat.geo (by decide)
    have F5 := labelStep_other d it (SIS.keywordStep d it (SIS.transcriptStep d it (SIS.ocrStep d it (SIS.geoStep d it (s, SIS.initialUpdates it d))))) MetaCat.geo (by decide)
    have F6 := customLabelStep_other d it (SIS.labelStep d it (SIS.keywordStep d it (SIS.transcriptStep d it (SIS.ocrStep d it (SIS.geoStep d it (s, SIS.initialUpdates it d)))))) MetaCat.geo (by decide)
    have F7 := moderationStep_other d it (SIS.customLabelStep d it (SIS.labelStep d it (SIS.keywordStep d it (SIS.transcriptStep d it (SIS.ocrStep d it (SIS.geoStep d it (s, SIS.initialUpdates it d))))))) MetaCat.geo (by decide)
    have Hitems : (SIS.moderationStep d it (SIS.customLabelStep d it (SIS.labelStep d it (SIS.keywordStep d it (SIS.transcriptStep d it (SIS.ocrStep d it (SIS.geoStep d it (s, SIS.initialUpdates it d)))))))).1.items = s.items := by
      rw [F7.2.2.1, F6.2.2.1, F5.2.2.1, F4.2.2.1, F3.2.2.1, F2.2.2.1, I1]
    refine ⟨Hitems, ?_, ?_⟩
    · intro hnone
      obtain ⟨Ht, Hu⟩ := A.1 hnone
      refine ⟨(s, SIS.initialUpdates it d).1.nextId, le_refl _, ?_, ?_⟩
      · rw [F7.1, F6.1, F5.1, F4.1, F3.1, F2.1, Ht]
      · rw [F7.2.1, F6.2.1, F5.2.1, F4.2.1, F3.2.1, F2.2.1]
        exact Hu
    · intro i0 hsome
      obtain ⟨Ht, Hu⟩ := A.2 i0 hsome
      constructor
      · rw [F7.1, F6.1, F5.1, F4.1, F3.1, F2.1, Ht]
      · rw [F7.2.1, F6.2.1, F5.2.1, F4.2.1, F3.2.1, F2.2.1]
        exact Hu
  | ocr =>
    have hex : ∃ o, d.ocrData = some o := by
      simp only [catProcessed] at hproc
      exact Option.isSome_iff_exists.mp hproc
    obtain ⟨o, hd⟩ := hex
    have A := ocrStep_action d it (SIS.geoStep d it (s, SIS.initialUpdates it d)) o hd
    have F1 := geoStep_other d it (s, SIS.initialUpdates it d) MetaCat.ocr (by decide)
    have I2 := (ocrStep_other d it (SIS.geoStep d it (s, SIS.initialUpdates it d)) MetaCat.geo (by decide)).2.2.1
    have F3 := transcriptStep_other d it (SIS.ocrStep d it (SIS.geoStep d it (s, SIS.initialUpdates it d))) MetaCat.ocr (by decide)
    have F4 := keywordStep_other d it (SIS.transcriptStep d it (SIS.ocrStep d it (SIS.geoStep d it (s, SIS.initialUpdates it d)))) MetaCat.ocr (by decide)
    have F5 := labelStep_other d it (SIS.keywordStep d it (SIS.transcriptStep d it (SIS.ocrStep d it (SIS.geoStep d it (s, SIS.initialUpdates it d))))) MetaCat.ocr (by decide)
    have F6 := customLabelStep_other d it (SIS.labelStep d it (SIS.keywordStep d it (SIS.transcriptStep d it (SIS.ocrStep d it (SIS.geoStep d it (s, SIS.initialUpdates it d)))))) MetaCat.ocr (by decide)
    have F7 := moderationStep_other d it (SIS.customLabelStep d it (SIS.labelStep d it (SIS.keywordStep d it (SIS.transcriptStep d it (SIS.ocrStep d it (SIS.geoStep d it (s, SIS.initialUpdates it d))))))) MetaCat.ocr (by decide)
    have Hitems : (SIS.moderationStep d it (SIS.customLabelStep d it (SIS.labelStep d it (SIS.keywordStep d it (SIS.transcriptStep d it (SIS.ocrStep d it (SIS.geoStep d it (s, SIS.initialUpdates it d)))))))).1.items = s.items := by
      rw [F7.2.2.1, F6.2.2.1, F5.2.2.1, F4.2.2.1, F3.2.2.1, I2, F1.2.2.1]
    refine ⟨Hitems, ?_, ?_⟩
    · intro hnone
      obtain ⟨Ht, Hu⟩ := A.1 hnone
      refine ⟨(SIS.geoStep d it (s, SIS.initialUpdates it d)).1.nextId, F1.2.2.2, ?_, ?_⟩
      · rw [F7.1, F6.1, F5.1, F4.1, F3.1, Ht, F1.1]
      · rw [F7.2.1, F6.2.1, F5.2.1, F4.2.1, F3.2.1]
        exact Hu
    · intro i0 hsome
      obtain ⟨Ht, Hu⟩ := A.2 i0 hsome
      constructor
      · rw [F7.1, F6.1, F5.1, F4.1, F3.1, Ht, F1.1]
      · rw [F7.2.1, F6.2.1, F5.2.1, F4.2.1, F3.2.1]
        exact Hu
  | transcript =>
    have hex : ∃ t, d.transcriptData = some t := by
      simp only [catProcessed] at hproc
      exact Option.isSome_iff_exists.mp hproc
    obtain ⟨t, hd⟩ := hex
    have A := transcriptStep_action d it (SIS.ocrStep d it (SIS.geoStep d it (s, SIS.initialUpdates it d))) t hd
    have F1 := geoStep_other d it (s, SIS.initialUpdates it d) MetaCat.transcript (by decide)
    have F2 := ocrStep_other d it (SIS.geoStep d it (s, SIS.initialUpdates it d)) MetaCat.transcript (by decide)
    have I3 := (transcriptStep_other d it (SIS.ocrStep d it (SIS.geoStep d it (s, SIS.initialUpdates it d))) MetaCat.geo (by decide)).2.2.1
    have F4 := keywordStep_other d it (SIS.transcriptStep d it (SIS.ocrStep d it (SIS.geoStep d it (s, SIS.initialUpdates it d)))) MetaCat.transcript (by decide)
    have F5 := labelStep_other d it (SIS.keywordStep d it (SIS.transcriptStep d it (SIS.ocrStep d it (SIS.geoStep d it (s, SIS.initialUpdates it d))))) MetaCat.transcript (by decide)
    have F6 := customLabelStep_other d it (SIS.labelStep d it (SIS.keywordStep d it (SIS.transcriptStep d it (SIS.ocrStep d it (SIS.geoStep d it (s, SIS.initialUpdates it d)))))) MetaCat.transcript (by decide)
    have F7 := moderationStep_other d it (SIS.customLabelStep d it (SIS.labelStep d it (SIS.keywordStep d it (SIS.transcriptStep d it (SIS.ocrStep d it (SIS.geoStep d it (s, SIS.initialUpdates it d))))))) MetaCat.transcript (by decide)
    have Hitems : (SIS.moderationStep d it (SIS.customLabelStep d it (SIS.labelStep d it (SIS.keywordStep d it (SIS.transcriptStep d it (SIS.ocrStep d it (SIS.geoStep d it (s, SIS.initialUpdates it d)))))))).1.items = s.items := by
      rw [F7.2.2.1, F6.2.2.1, F5.2.2.1, F4.2.2.1, I3, F2.2.2.1, F1.2.2.1]
    refine ⟨Hitems, ?_, ?_⟩
    · intro hnone
      obtain ⟨Ht, Hu⟩ := A.1 hnone
      refine ⟨(SIS.ocrStep d it (SIS.geoStep d it (s, SIS.initialUpdates it d))).1.nextId, le_trans F1.2.2.2 (F2.2.2.2), ?_, ?_⟩
      · rw [F7.1, F6.1, F5.1, F4.1, Ht, F2.1, F1.1]
      · rw [F7.2.1, F6.2.1, F5.2.1, F4.2.1]
        exact Hu
    · intro i0 hsome
      obtain ⟨Ht, Hu⟩ := A.2 i0 hsome
      constructor
      · rw [F7.1, F6.1, F5.1, F4.1, Ht, F2.1, F1.1]
      · rw [F7.2.1, F6.2.1, F5.2.1, F4.2.1]
        exact Hu
  | keyword =>
    have hex : ∃ kw, d.keywords = some kw ∧ kw.falsy = false := by
      simp only [catProcessed] at hproc
      rcases hk : d.keywords with _ | x
      · rw [hk] at hproc
        exact absurd hproc (by simp)
      · rw [hk] at hproc
        exact ⟨x, rfl, by simpa using hproc⟩
    obtain ⟨kw, hd, hfl⟩ := hex
    have A := keywordStep_action d it (SIS.transcriptStep d it (SIS.ocrStep d it (SIS.geoStep d it (s, SIS.initialUpdates it d)))) kw hd hfl
    have F1 := geoStep_other d it (s, SIS.initialUpdates it d) MetaCat.keyword (by decide)
    have F2 := ocrStep_other d it (SIS.geoStep d it (s, SIS.initialUpdates it d)) MetaCat.keyword (by decide)
    have F3 := transcriptStep_other d it (SIS.ocrStep d it (SIS.geoStep d it (s, SIS.initialUpdates it d))) MetaCat.keyword (by decide)
    have I4 := (keywordStep_other d it (SIS.transcriptStep d it (SIS.ocrStep d it (SIS.geoStep d it (s, SIS.initialUpdates it d)))) MetaCat.geo (by decide)).2.2.1
    have F5 := labelStep_other d it (SIS.keywordStep d it (SIS.transcriptStep d it (SIS.ocrStep d it (SIS.geoStep d it (s, SIS.initialUpdates it d))))) MetaCat.keyword (by decide)
    have F6 := customLabelStep_other d it (SIS.labelStep d it (SIS.keywordStep d it (SIS.transcriptStep d it (SIS.ocrStep d it (SIS.geoStep d it (s, SIS.initialUpdates it d)))))) MetaCat.keyword (by decide)
    have F7 := moderationStep_other d it (SIS.customLabelStep d it (SIS.labelStep d it (SIS.keywordStep d it (SIS.transcriptStep d it (SIS.ocrStep d it (SIS.geoStep d it (s, SIS.initialUpdates it d))))))) MetaCat.keyword (by decide)
    have Hitems : (SIS.moderationStep d it (SIS.customLabelStep d it (SIS.labelStep d it (SIS.keywordStep d it (SIS.transcriptStep d it (SIS.ocrStep d it (SIS.geoStep d it (s, SIS.initialUpdates it d)))))))).1.items = s.items := by
      rw [F7.2.2.1, F6.2.2.1, F5.2.2.1, I4, F3.2.2.1, F2.2.2.1, F1.2.2.1]
    refine ⟨Hitems, ?_, ?_⟩
    · intro hnone
      obtain ⟨Ht, Hu⟩ := A.1 hnone
      refine ⟨(SIS.transcriptStep d it (SIS.ocrStep d it (SIS.geoStep d it (s, SIS.initialUpdates it d)))).1.nextId, le_trans F1.2.2.2 (le_trans F2.2.2.2 (F3.2.2.2)), ?_, ?_⟩
      · rw [F7.1, F6.1, F5.1, Ht, F3.1, F2.1, F1.1]
      · rw [F7.2.1, F6.2.1, F5.2.1]
        exact Hu
    · intro i0 hsome
      obtain ⟨Ht, Hu⟩ := A.2 i0 hsome
      constructor
      · rw [F7.1, F6.1, F5.1, Ht, F3.1, F2.1, F1.1]
      · rw [F7.2.1, F6.2.1, F5.2.1]
        exact Hu
  | label =>
    have hex : ∃ ld, d.labelData = some ld ∧ (jsTruthy ld.labels || jsTruthy ld.rawResponse) = true := by
      simp only [catProcessed] at hproc
      rcases hk : d.labelData with _ | ld
      · rw [hk] at hproc
        exact absurd hproc (by simp)
      · rw [hk] at hproc
        exact ⟨ld, rfl, hproc⟩
    obtain ⟨ld, hd, hgu⟩ := hex
    have A := labelStep_action d it (SIS.keywordStep d it (SIS.transcriptStep d it (SIS.ocrStep d it (SIS.geoStep d it (s, SIS.initialUpdates it d))))) ld hd hgu
    have F1 := geoStep_other d it (s, SIS.initialUpdates it d) MetaCat.label (by decide)
    have F2 := ocrStep_other d it (SIS.geoStep d it (s, SIS.initialUpdates it d)) MetaCat.label (by decide)
    have F3 := transcriptStep_other d it (SIS.ocrStep d it (SIS.geoStep d it (s, SIS.initialUpdates it d))) MetaCat.label (by decide)
    have F4 := keywordStep_other d it (SIS.transcriptStep d it (SIS.ocrStep d it (SIS.geoStep d it (s, SIS.initialUpdates it d)))) MetaCat.label (by decide)
    have I5 := (labelStep_other d it (SIS.keywordStep d it (SIS.transcriptStep d it (SIS.ocrStep d it (SIS.geoStep d it (s, SIS.initialUpdates it d))))) MetaCat.geo (by decide)).2.2.1
    have F6 := customLabelStep_other d it (SIS.labelStep d it (SIS.keywordStep d it (SIS.transcriptStep d it (SIS.ocrStep d it (SIS.geoStep d it (s, SIS.initialUpdates it d)))))) MetaCat.label (by decide)
    have F7 := moderationStep_other d it (SIS.customLabelStep d it (SIS.labelStep d it (SIS.keywordStep d it (SIS.transcriptStep d it (SIS.ocrStep d it (SIS.geoStep d it (s, SIS.initialUpdates it d))))))) MetaCat.label (by decide)
    have Hitems : (SIS.moderationStep d it (SIS.customLabelStep d it (SIS.labelStep d it (SIS.keywordStep d it (SIS.transcriptStep d it (SIS.ocrStep d it (SIS.geoStep d it (s, SIS.initialUpdates it d)))))))).1.items = s.items := by
      rw [F7.2.2.1, F6.2.2.1, I5, F4.2.2.1, F3.2.2.1, F2.2.2.1, F1.2.2.1]
    refine ⟨Hitems, ?_, ?_⟩
    · intro hnone
      obtain ⟨Ht, Hu⟩ := A.1 hnone
      refine ⟨(SIS.keywordStep d it (SIS.transcriptStep d it (SIS.ocrStep d it (SIS.geoStep d it (s, SIS.initialUpdates it d))))).1.nextId, le_trans F1.2.2.2 (le_trans F2.2.2.2 (le_trans F3.2.2.2 (F4.2.2.2))), ?_, ?_⟩
      · rw [F7.1, F6.1, Ht, F4.1, F3.1, F2.1, F1.1]
      · rw [F7.2.1, F6.2.1]
        exact Hu
    · intro i0 hsome
      obtain ⟨Ht, Hu⟩ := A.2 i0 hsome
      constructor
      · rw [F7.1, F6.1, Ht, F4.1, F3.1, F2.1, F1.1]
      · rw [F7.2.1, F6.2.1]
        exact Hu
  | customLabel =>
    have hex : ∃ cd, d.customLabelData = some cd ∧ (jsTruthy cd.customLabels || jsTruthy cd.rawResponse) = true := by
      simp only [catProcessed] at hproc
      rcases hk : d.customLabelData with _ | cd
      · rw [hk] at hproc
        exact absurd hproc (by simp)
      · rw [hk] at hproc
        exact ⟨cd, rfl, hproc⟩
    obtain ⟨cd, hd, hgu⟩ := hex
    have A := customLabelStep_action d it (SIS.labelStep d it (SIS.keywordStep d it (SIS.transcriptStep d it (SIS.ocrStep d it (SIS.geoStep d it (s, SIS.initialUpdates it d)))))) cd hd hgu
    have F1 := geoStep_other d it (s, SIS.initialUpdates it d) MetaCat.customLabel (by decide)
    have F2 := ocrStep_other d it (SIS.geoStep d it (s, SIS.initialUpdates it d)) MetaCat.customLabel (by decide)
    have F3 := transcriptStep_other d it (SIS.ocrStep d it (SIS.geoStep d it (s, SIS.initialUpdates it d))) MetaCat.customLabel (by decide)
    have F4 := keywordStep_other d it (SIS.transcriptStep d it (SIS.ocrStep d it (SIS.geoStep d it (s, SIS.initialUpdates it d)))) MetaCat.customLabel (by decide)
    have F5 := labelStep_other d it (SIS.keywordStep d it (SIS.transcriptStep d it (SIS.ocrStep d it (SIS.geoStep d it (s, SIS.initialUpdates it d))))) MetaCat.customLabel (by decide)
    have I6 := (customLabelStep_other d it (SIS.labelStep d it (SIS.keywordStep d it (SIS.transcriptStep d it (SIS.ocrStep d it (SIS.geoStep d it (s, SIS.initialUpdates it d)))))) MetaCat.geo (by decide)).2.2.1
    have F7 := moderationStep_other d it (SIS.customLabelStep d it (SIS.labelStep d it (SIS.keywordStep d it (SIS.transcriptStep d it (SIS.ocrStep d it (SIS.geoStep d it (s, SIS.initialUpdates it d))))))) MetaCat.customLabel (by decide)
    have Hitems : (SIS.moderationStep d it (SIS.customLabelStep d it (SIS.labelStep d it (SIS.keywordStep d it (SIS.transcriptStep d it (SIS.ocrStep d it (SIS.geoStep d it (s, SIS.initialUpdates it d)))))))).1.items = s.items := by
      rw [F7.2.2.1, I6, F5.2.2.1, F4.2.2.1, F3.2.2.1, F2.2.2.1, F1.2.2.1]
    refine ⟨Hitems, ?_, ?_⟩
    · intro hnone
      obtain ⟨Ht, Hu⟩ := A.1 hnone
      refine ⟨(SIS.labelStep d it (SIS.keywordStep d it (SIS.transcriptStep d it (SIS.ocrStep d it (SIS.geoStep d it (s, SIS.initialUpdates it d)))))).1.nextId, le_trans F1.2.2.2 (le_trans F2.2.2.2 (le_trans F3.2.2.2 (le_trans F4.2.2.2 (F5.2.2.2)))), ?_, ?_⟩
      · rw [F7.1, Ht, F5.1, F4.1, F3.1, F2.1, F1.1]
      · rw [F7.2.1]
        exact Hu
    · intro i0 hsome
      obtain ⟨Ht, Hu⟩ := A.2 i0 hsome
      constructor
      · rw [F7.1, Ht, F5.1, F4.1, F3.1, F2.1, F1.1]
      · rw [F7.2.1]
        exact Hu
  | moderation =>
    have hex : ∃ md, d.moderationData = some md ∧ (jsTruthy md.moderationLabels || jsTruthy md.rawResponse) = true := by
      simp only [catProcessed] at hproc
      rcases hk : d.moderationData with _ | md
      · rw [hk] at hproc
        exact absurd hproc (by simp)
      · rw [hk] at hproc
        exact ⟨md, rfl, hproc⟩
    obtain ⟨md, hd, hgu⟩ := hex
    have A := moderationStep_action d it (SIS.customLabelStep d it (SIS.labelStep d it (SIS.keywordStep d it (SIS.transcriptStep d it (SIS.ocrStep d it (SIS.geoStep d it (s, SIS.initialUpdates it d))))))) md hd hgu
    have F1 := geoStep_other d it (s, SIS.initialUpdates it d) MetaCat.moderation (by decide)
    have F2 := ocrStep_other d it (SIS.geoStep d it (s, SIS.initialUpdates it d)) MetaCat.moderation (by decide)
    have F3 := transcriptStep_other d it (SIS.ocrStep d it (SIS.geoStep d it (s, SIS.initialUpdates it d))) MetaCat.moderation (by decide)
    have F4 := keywordStep_other d it (SIS.transcriptStep d it (SIS.ocrStep d it (SIS.geoStep d it (s, SIS.initialUpdates it d)))) MetaCat.moderation (by decide)
    have F5 := labelStep_other d it (SIS.keywordStep d it (SIS.transcriptStep d it (SIS.ocrStep d it (SIS.geoStep d it (s, SIS.initialUpdates it d))))) MetaCat.moderation (by decide)
    have F6 := customLabelStep_other d it (SIS.labelStep d it (SIS.keywordStep d it (SIS.transcriptStep d it (SIS.ocrStep d it (SIS.geoStep d it (s, SIS.initialUpdates it d)))))) MetaCat.moderation (by decide)
    have I7 := (moderationStep_other d it (SIS.customLabelStep d it (SIS.labelStep d it (SIS.keywordStep d it (SIS.transcriptStep d it (SIS.ocrStep d it (SIS.geoStep d it (s, SIS.initialUpdates it d))))))) MetaCat.geo (by decide)).2.2.1
    have Hitems : (SIS.moderationStep d it (SIS.customLabelStep d it (SIS.labelStep d it (SIS.keywordStep d it (SIS.transcriptStep d it (SIS.ocrStep d it (SIS.geoStep d it (s, SIS.initialUpdates it d)))))))).1.items = s.items := by
      rw [I7, F6.2.2.1, F5.2.2.1, F4.2.2.1, F3.2.2.1, F2.2.2.1, F1.2.2.1]
    refine ⟨Hitems, ?_, ?_⟩
    · intro hnone
      obtain ⟨Ht, Hu⟩ := A.1 hnone
      refine ⟨(SIS.customLabelStep d it (SIS.labelStep d it (SIS.keywordStep d it (SIS.transcriptStep d it (SIS.ocrStep d it (SIS.geoStep d it (s, SIS.initialUpdates it d))))))).1.nextId, le_trans F1.2.2.2 (le_trans F2.2.2.2 (le_trans F3.2.2.2 (le_trans F4.2.2.2 (le_trans F5.2.2.2 (F6.2.2.2))))), ?_, ?_⟩
      · rw [Ht, F6.1, F5.1, F4.1, F3.1, F2.1, F1.1]
      · exact Hu
    · intro i0 hsome
      obtain ⟨Ht, Hu⟩ := A.2 i0 hsome
      constructor
      · rw [Ht, F6.1, F5.1, F4.1, F3.1, F2.1, F1.1]
      · exact Hu

/-- A `MetaFrame` store change preserves every category table. -/
theorem metaFrame_catTableIds {s s' : SIS.Store} (h : MetaFrame s s') (c : MetaCat) :
    catTableIds s' c = catTableIds s c := by
  obtain ⟨h1, h2, h3, h4, h5, h6, h7, h8⟩ := h
  cases c <;> simp [catTableIds, h1, h2, h3, h4, h5, h6, h7]

/-- A `MetaFrame` store change preserves the item table. -/
theorem metaFrame_items {s s' : SIS.Store} (h : MetaFrame s s') : s'.items = s.items :=
  h.2.2.2.2.2.2.2

/-- Replacing the item list leaves every category table unchanged. -/
theorem catTableIds_set_items (s : SIS.Store) (l : List SIS.StorageItem) (c : MetaCat) :
    catTableIds { s with items := l } c = catTableIds s c := by
  cases c <;> rfl

/-- The final item update rewrites the looked-up item through the collected
updates. -/
theorem sis_find_map (l : List SIS.StorageItem) (id : Nat)
    (f : SIS.StorageItem → SIS.StorageItem) (hf : ∀ j, (f j).id = j.id) :
    (l.map (fun j => if j.id == id then f j else j)).find? (fun j => j.id == id)
      = (l.find? (fun j => j.id == id)).map f := by
  induction l with
  | nil => rfl
  | cons a l ih =>
    by_cases h : a.id = id
    · have hb : (a.id == id) = true := by simpa using h
      simp only [List.map_cons, hb, if_true]
      rw [List.find?_cons_of_pos, List.find?_cons_of_pos]
      · rfl
      · exact hb
      · simp [hf a, h]
    · have hb : (a.id == id) = false := by simpa using h
      simp only [List.map_cons, hb, Bool.false_eq_true, if_false]
      rw [List.find?_cons_of_neg, List.find?_cons_of_neg]
      · exact ih
      · simp [hb]
      · simp [hb]

/-- `applyUpdates` sets exactly the recorded links, keeping absent ones. -/
theorem applyUpdates_catLink (j : SIS.StorageItem) (u : SIS.Updates) (now : Nat)
    (c : MetaCat) :
    catLink (SIS.applyUpdates j u now) c
      = match updLink u c with
        | some i => some i
        | none => catLink j c := by
  cases c <;> rfl

/-- C3: for every item and every recognized (processed) category, the merge
engine creates a new side record and attaches its fresh id to the item's
link field when no link exists, and otherwise updates the already-linked
record in place leaving the link id and the table ids unchanged — so at most
one record of the category is ever linked to the item. -/
theorem claim3_create_vs_update (s : SIS.Store) (id now : Nat) (d : SIS.EnrichData)
    (cat : MetaCat) (it : SIS.StorageItem)
    (hitem : SIS.findItem s id = some it)
    (hproc : catProcessed d cat = true)
    (hfresh : ∀ n ∈ catTableIds s cat, n < s.nextId) :
    ∃ it', SIS.findItem (SIS.updateEnrichmentData id d now s).1 id = some it' ∧
      (catLink it cat = none →
        ∃ n, catLink it' cat = some n ∧ n ∉ catTableIds s cat ∧
          catTableIds (SIS.updateEnrichmentData id d now s).1 cat
            = catTableIds s cat ++ [n] ∧
          (catTableIds (SIS.updateEnrichmentData id d now s).1 cat).count n = 1) ∧
      (∀ i0, catLink it cat = some i0 →
        catLink it' cat = some i0 ∧
        catTableIds (SIS.updateEnrichmentData id d now s).1 cat = catTableIds s cat) := by
  obtain ⟨Hitems, Hcr, Hup⟩ := categorySteps_char d it s cat hproc
  have MF := facesStep_metaFrame d id (SIS.moderationStep d it (SIS.customLabelStep d it (SIS.labelStep d it (SIS.keywordStep d it (SIS.transcriptStep d it (SIS.ocrStep d it (SIS.geoStep d it (s, SIS.initialUpdates it d)))))))).1
  have hitem' : s.items.find? (fun j => j.id == id) = some it := hitem
  simp only [SIS.updateEnrichmentData, hitem]
  refine ⟨SIS.applyUpdates it (SIS.moderationStep d it (SIS.customLabelStep d it (SIS.labelStep d it (SIS.keywordStep d it (SIS.transcriptStep d it (SIS.ocrStep d it (SIS.geoStep d it (s, SIS.initialUpdates it d)))))))).2 now, ?_, ?_, ?_⟩
  · show ((SIS.facesStep d id (SIS.moderationStep d it (SIS.customLabelStep d it (SIS.labelStep d it (SIS.keywordStep d it (SIS.transcriptStep d it (SIS.ocrStep d it (SIS.geoStep d it (s, SIS.initialUpdates it d)))))))).1).items.map
        (fun j => if j.id == id then SIS.applyUpdates j (SIS.moderationStep d it (SIS.customLabelStep d it (SIS.labelStep d it (SIS.keywordStep d it (SIS.transcriptStep d it (SIS.ocrStep d it (SIS.geoStep d it (s, SIS.initialUpdates it d)))))))).2 now else j)).find?
          (fun j => j.id == id) = _
    rw [metaFrame_items MF, Hitems,
      sis_find_map s.items id (fun j => SIS.applyUpdates j (SIS.moderationStep d it (SIS.customLabelStep d it (SIS.labelStep d it (SIS.keywordStep d it (SIS.transcriptStep d it (SIS.ocrStep d it (SIS.geoStep d it (s, SIS.initialUpdates it d)))))))).2 now) (fun j => rfl),
      hitem']
    rfl
  · intro hnone
    obtain ⟨n, hge, Htab, Hupd⟩ := Hcr hnone
    have hnotin : n ∉ catTableIds s cat := fun hmem =>
      absurd (hfresh n hmem) (not_lt.mpr hge)
    refine ⟨n, ?_, hnotin, ?_, ?_⟩
    · rw [applyUpdates_catLink, Hupd]
    · rw [catTableIds_set_items, metaFrame_catTableIds MF cat]
      exact Htab
    · rw [catTableIds_set_items, metaFrame_catTableIds MF cat, Htab,
        List.count_append]
      simp [List.count_eq_zero.mpr hnotin]
  · intro i0 hsome
    obtain ⟨Htab, Hupd⟩ := Hup i0 hsome
    constructor
    · rw [applyUpdates_catLink, Hupd]
    · rw [catTableIds_set_items, metaFrame_catTableIds MF cat]
      exact Htab

/-- Witness for C3: merging OCR data into an item with no OCR link. -/
theorem claim3_witness :
    ∃ it', SIS.findItem (SIS.updateEnrichmentData 1 claim3Data 42 sisStore).1 1 = some it' ∧
      (catLink sisItem MetaCat.ocr = none →
        ∃ n, catLink it' MetaCat.ocr = some n ∧ n ∉ catTableIds sisStore MetaCat.ocr ∧
          catTableIds (SIS.updateEnrichmentData 1 claim3Data 42 sisStore).1 MetaCat.ocr
            = catTableIds sisStore MetaCat.ocr ++ [n] ∧
          (catTableIds (SIS.updateEnrichmentData 1 claim3Data 42 sisStore).1 MetaCat.ocr).count n
            = 1) ∧
      (∀ i0, catLink sisItem MetaCat.ocr = some i0 →
        catLink it' MetaCat.ocr = some i0 ∧
        catTableIds (SIS.updateEnrichmentData 1 claim3Data 42 sisStore).1 MetaCat.ocr
          = catTableIds sisStore MetaCat.ocr) :=
  claim3_create_vs_update sisStore 1 42 claim3Data MetaCat.ocr sisItem rfl rfl
    (by simp [catTableIds, sisStore])

/-- `hasSensitiveContent` is false exactly when no moderation label — raw or
pre-extracted — exceeds 80% confidence. -/
theorem hasSensitiveContent_spec (md : SIS.ModerationData) :
    SIS.hasSensitiveContent (some md) = false ↔ noLabelExceeds80 md := by
  unfold SIS.hasSensitiveContent noLabelExceeds80 rawModLabels directModLabels
  rw [Bool.or_eq_false_iff]
  apply and_congr
  · cases hr : md.rawResponse with
    | none => simp [exceeds80Raw]
    | some r =>
      simp only [hr]
      cases hf : r.getField "ModerationLabels" with
      | none => simp [exceeds80Raw]
      | some j =>
        cases j with
        | arr ls =>
          rw [List.any_eq_false]
          apply forall_congr'
          intro l
          constructor
          · intro hl hmem
            intro hex
            obtain ⟨c, hc, hgt⟩ := hex
            have := hl hmem
            rw [hc] at this
            simp at this
            exact absurd hgt (not_lt.mpr this)
          · intro hl hmem
            cases hc : l.getField "Confidence" with
            | none => simp
            | some v =>
              cases v with
              | num c =>
                simp only [decide_eq_false_iff_not]
                intro hgt
                exact (hl hmem) ⟨c, hc, of_decide_eq_true hgt⟩
              | null => simp
              | bool b => simp
              | str ss => simp
              | arr xs => simp
              | obj fs => simp
        | null => simp [exceeds80Raw]
        | bool b => simp [exceeds80Raw]
        | num q => simp [exceeds80Raw]
        | str ss => simp [exceeds80Raw]
        | obj fs => simp [exceeds80Raw]
  · cases hm : md.moderationLabels with
    | none => simp [exceeds80Direct]
    | some j =>
      cases j with
      | arr ls =>
        by_cases hlen : ls.length > 0
        · simp only [hlen, if_true]
          rw [List.any_eq_false]
          apply forall_congr'
          intro l
          constructor
          · intro hl hmem hex
            obtain ⟨c, hc, hgt⟩ := hex
            have := hl hmem
            rw [hc] at this
            simp at this
            exact absurd hgt (not_lt.mpr this)
          · intro hl hmem
            cases hc : l.getField "confidence" with
            | none => simp
            | some v =>
              cases v with
              | num c =>
                simp only [decide_eq_false_iff_not]
                intro hgt
                exact (hl hmem) ⟨c, hc, of_decide_eq_true hgt⟩
              | null => simp
              | bool b => simp
              | str ss => simp
              | arr xs => simp
              | obj fs => simp
        · have : ls = [] := by
            simpa using List.length_eq_zero.mp (by omega)
          subst this
          simp
      | null => simp [exceeds80Direct]
      | bool b => simp [exceeds80Direct]
      | num q => simp [exceeds80Direct]
      | str ss => simp [exceeds80Direct]
      | obj fs => simp [exceeds80Direct]

/-- The moderation block links a row whose `isSafe` is the supplied value,
or the negation of `hasSensitiveContent` when not supplied. -/
theorem moderationStep_isSafe (d : SIS.EnrichData) (it : SIS.StorageItem)
    (su : SIS.Store × SIS.Updates) (md : SIS.ModerationData)
    (hd : d.moderationData = some md)
    (hgu : (jsTruthy md.moderationLabels || jsTruthy md.rawResponse) = true)
    (hfresh : ∀ m ∈ catTableIds su.1 MetaCat.moderation, m < su.1.nextId)
    (hlv : ∀ i0, it.contentModerationMetaId = some i0 →
        i0 ∈ catTableIds su.1 MetaCat.moderation) :
    ∃ n, updLink (SIS.moderationStep d it su).2 MetaCat.moderation = some n ∧
      (∃ r ∈ (SIS.moderationStep d it su).1.contentModerationMetas, r.id = n) ∧
      (∀ r ∈ (SIS.moderationStep d it su).1.contentModerationMetas, r.id = n →
        r.isSafe = (match md.isSafe with
          | some b => b
          | none => !SIS.hasSensitiveContent (some md))) := by
  unfold SIS.moderationStep
  simp only [hd, hgu, Bool.not_true, Bool.false_eq_true, if_false]
  cases hl : it.contentModerationMetaId with
  | none =>
    refine ⟨su.1.nextId, rfl, ?_, ?_⟩
    · exact ⟨_, List.mem_append_right _ (List.mem_singleton_self _), rfl⟩
    · intro r hr hid
      rcases List.mem_append.mp hr with hold | hnew
      · exfalso
        have hmem : r.id ∈ catTableIds su.1 MetaCat.moderation := by
          unfold catTableIds
          exact List.mem_map_of_mem _ hold
        have := hfresh _ hmem
        omega
      · rw [List.mem_singleton.mp hnew]
  | some i0 =>
    refine ⟨i0, rfl, ?_, ?_⟩
    · have hmem := hlv i0 hl
      unfold catTableIds at hmem
      obtain ⟨r0, hr0, hid0⟩ := List.mem_map.mp hmem
      exact ⟨_, List.mem_map_of_mem _ hr0, by simp [hid0]⟩
    · intro r hr hid
      obtain ⟨r0, hr0, heq⟩ := List.mem_map.mp hr
      by_cases h : r0.id = i0
      · rw [← heq]
        simp [h]
      · rw [← heq] at hid
        simp [h] at hid

/-- C8: for a processed moderation payload, the row linked from the item
after the merge stores `isSafe` as supplied when supplied, and otherwise as
true exactly when no moderation label (raw or pre-extracted) exceeds 80%
confidence. -/
theorem claim8_isSafe_threshold (s : SIS.Store) (id now : Nat) (d : SIS.EnrichData)
    (md : SIS.ModerationData) (it : SIS.StorageItem)
    (hitem : SIS.findItem s id = some it)
    (hd : d.moderationData = some md)
    (hgu : (jsTruthy md.moderationLabels || jsTruthy md.rawResponse) = true)
    (hfresh : ∀ m ∈ catTableIds s MetaCat.moderation, m < s.nextId)
    (hlv : ∀ i0, it.contentModerationMetaId = some i0 →
        i0 ∈ catTableIds s MetaCat.moderation) :
    ∃ it' n, SIS.findItem (SIS.updateEnrichmentData id d now s).1 id = some it' ∧
      it'.contentModerationMetaId = some n ∧
      (∃ r ∈ (SIS.updateEnrichmentData id d now s).1.contentModerationMetas, r.id = n) ∧
      (∀ r ∈ (SIS.updateEnrichmentData id d now s).1.contentModerationMetas, r.id = n →
        ((md.isSafe = none → (r.isSafe = true ↔ noLabelExceeds80 md)) ∧
         (∀ b, md.isSafe = some b → r.isSafe = b))) := by
  have F1 := geoStep_other d it (s, SIS.initialUpdates it d) MetaCat.moderation (by decide)
  have F2 := ocrStep_other d it (SIS.geoStep d it (s, SIS.initialUpdates it d)) MetaCat.moderation (by decide)
  have F3 := transcriptStep_other d it (SIS.ocrStep d it (SIS.geoStep d it (s, SIS.initialUpdates it d))) MetaCat.moderation (by decide)
  have F4 := keywordStep_other d it (SIS.transcriptStep d it (SIS.ocrStep d it (SIS.geoStep d it (s, SIS.initialUpdates it d)))) MetaCat.moderation (by decide)
  have F5 := labelStep_other d it (SIS.keywordStep d it (SIS.transcriptStep d it (SIS.ocrStep d it (SIS.geoStep d it (s, SIS.initialUpdates it d))))) MetaCat.moderation (by decide)
  have F6 := customLabelStep_other d it (SIS.labelStep d it (SIS.keywordStep d it (SIS.transcriptStep d it (SIS.ocrStep d it (SIS.geoStep d it (s, SIS.initialUpdates it d)))))) MetaCat.moderation (by decide)
  have I7 := (moderationStep_other d it (SIS.customLabelStep d it (SIS.labelStep d it (SIS.keywordStep d it (SIS.transcriptStep d it (SIS.ocrStep d it (SIS.geoStep d it (s, SIS.initialUpdates it d))))))) MetaCat.geo (by decide)).2.2.1
  have Htab6 : catTableIds (SIS.customLabelStep d it (SIS.labelStep d it (SIS.keywordStep d it (SIS.transcriptStep d it (SIS.ocrStep d it (SIS.geoStep d it (s, SIS.initialUpdates it d))))))).1 MetaCat.moderation = catTableIds s MetaCat.moderation := by
    rw [F6.1, F5.1, F4.1, F3.1, F2.1, F1.1]
  have Hmono6 : s.nextId ≤ (SIS.customLabelStep d it (SIS.labelStep d it (SIS.keywordStep d it (SIS.transcriptStep d it (SIS.ocrStep d it (SIS.geoStep d it (s, SIS.initialUpdates it d))))))).1.nextId := le_trans F1.2.2.2 (le_trans F2.2.2.2 (le_trans F3.2.2.2 (le_trans F4.2.2.2 (le_trans F5.2.2.2 (F6.2.2.2)))))
  have hfresh6 : ∀ m ∈ catTableIds (SIS.customLabelStep d it (SIS.labelStep d it (SIS.keywordStep d it (SIS.transcriptStep d it (SIS.ocrStep d it (SIS.geoStep d it (s, SIS.initialUpdates it d))))))).1 MetaCat.moderation, m < (SIS.customLabelStep d it (SIS.labelStep d it (SIS.keywordStep d it (SIS.transcriptStep d it (SIS.ocrStep d it (SIS.geoStep d it (s, SIS.initialUpdates it d))))))).1.nextId := by
    rw [Htab6]
    intro m hm
    exact lt_of_lt_of_le (hfresh m hm) Hmono6
  have hlv6 : ∀ i0, it.contentModerationMetaId = some i0 →
      i0 ∈ catTableIds (SIS.customLabelStep d it (SIS.labelStep d it (SIS.keywordStep d it (SIS.transcriptStep d it (SIS.ocrStep d it (SIS.geoStep d it (s, SIS.initialUpdates it d))))))).1 MetaCat.moderation := by
    rw [Htab6]
    exact hlv
  obtain ⟨n, hupd, ⟨r, hrmem, hrid⟩, hall⟩ :=
    moderationStep_isSafe d it (SIS.customLabelStep d it (SIS.labelStep d it (SIS.keywordStep d it (SIS.transcriptStep d it (SIS.ocrStep d it (SIS.geoStep d it (s, SIS.initialUpdates it d))))))) md hd hgu hfresh6 hlv6
  have Hitems : (SIS.moderationStep d it (SIS.customLabelStep d it (SIS.labelStep d it (SIS.keywordStep d it (SIS.transcriptStep d it (SIS.ocrStep d it (SIS.geoStep d it (s, SIS.initialUpdates it d)))))))).1.items = s.items := by
    rw [I7, F6.2.2.1, F5.2.2.1, F4.2.2.1, F3.2.2.1, F2.2.2.1, F1.2.2.1]
  have MF := facesStep_metaFrame d id (SIS.moderationStep d it (SIS.customLabelStep d it (SIS.labelStep d it (SIS.keywordStep d it (SIS.transcriptStep d it (SIS.ocrStep d it (SIS.geoStep d it (s, SIS.initialUpdates it d)))))))).1
  have MFmod : (SIS.facesStep d id (SIS.moderationStep d it (SIS.customLabelStep d it (SIS.labelStep d it (SIS.keywordStep d it (SIS.transcriptStep d it (SIS.ocrStep d it (SIS.geoStep d it (s, SIS.initialUpdates it d)))))))).1).contentModerationMetas
      = (SIS.moderationStep d it (SIS.customLabelStep d it (SIS.labelStep d it (SIS.keywordStep d it (SIS.transcriptStep d it (SIS.ocrStep d it (SIS.geoStep d it (s, SIS.initialUpdates it d)))))))).1.contentModerationMetas := MF.2.2.2.2.2.2.1
  have hitem' : s.items.find? (fun j => j.id == id) = some it := hitem
  have h2 : (SIS.moderationStep d it (SIS.customLabelStep d it (SIS.labelStep d it (SIS.keywordStep d it (SIS.transcriptStep d it (SIS.ocrStep d it (SIS.geoStep d it (s, SIS.initialUpdates it d)))))))).2.contentModerationMetaId = some n := hupd
  simp only [SIS.updateEnrichmentData, hitem]
  refine ⟨SIS.applyUpdates it (SIS.moderationStep d it (SIS.customLabelStep d it (SIS.labelStep d it (SIS.keywordStep d it (SIS.transcriptStep d it (SIS.ocrStep d it (SIS.geoStep d it (s, SIS.initialUpdates it d)))))))).2 now, n, ?_, ?_, ?_, ?_⟩
  · show ((SIS.facesStep d id (SIS.moderationStep d it (SIS.customLabelStep d it (SIS.labelStep d it (SIS.keywordStep d it (SIS.transcriptStep d it (SIS.ocrStep d it (SIS.geoStep d it (s, SIS.initialUpdates it d)))))))).1).items.map
        (fun j => if j.id == id then SIS.applyUpdates j (SIS.moderationStep d it (SIS.customLabelStep d it (SIS.labelStep d it (SIS.keywordStep d it (SIS.transcriptStep d it (SIS.ocrStep d it (SIS.geoStep d it (s, SIS.initialUpdates it d)))))))).2 now else j)).find?
          (fun j => j.id == id) = _
    rw [metaFrame_items MF, Hitems,
      sis_find_map s.items id (fun j => SIS.applyUpdates j (SIS.moderationStep d it (SIS.customLabelStep d it (SIS.labelStep d it (SIS.keywordStep d it (SIS.transcriptStep d it (SIS.ocrStep d it (SIS.geoStep d it (s, SIS.initialUpdates it d)))))))).2 now) (fun j => rfl),
      hitem']
    rfl
  · show (SIS.applyUpdates it (SIS.moderationStep d it (SIS.customLabelStep d it (SIS.labelStep d it (SIS.keywordStep d it (SIS.transcriptStep d it (SIS.ocrStep d it (SIS.geoStep d it (s, SIS.initialUpdates it d)))))))).2 now).contentModerationMetaId = some n
    unfold SIS.applyUpdates
    rw [h2]
  · show ∃ r ∈ (SIS.facesStep d id (SIS.moderationStep d it (SIS.customLabelStep d it (SIS.labelStep d it (SIS.keywordStep d it (SIS.transcriptStep d it (SIS.ocrStep d it (SIS.geoStep d it (s, SIS.initialUpdates it d)))))))).1).contentModerationMetas, r.id = n
    rw [MFmod]
    exact ⟨r, hrmem, hrid⟩
  · intro r2 hr2 hid2
    have hr2' : r2 ∈ (SIS.moderationStep d it (SIS.customLabelStep d it (SIS.labelStep d it (SIS.keywordStep d it (SIS.transcriptStep d it (SIS.ocrStep d it (SIS.geoStep d it (s, SIS.initialUpdates it d)))))))).1.contentModerationMetas := by
      rw [← MFmod]
      exact hr2
    have hsafe := hall r2 hr2' hid2
    constructor
    · intro hnone
      rw [hnone] at hsafe
      rw [hsafe, Bool.not_eq_true']
      exact hasSensitiveContent_spec md
    · intro b hb
      rw [hb] at hsafe
      exact hsafe

/-- Witness for C8: a 90%-confidence moderation label with no explicit
`isSafe` on an item with no moderation link. -/
theorem claim8_witness :
    ∃ it' n, SIS.findItem (SIS.updateEnrichmentData 1 claim8Data 42 sisStore).1 1 = some it' ∧
      it'.contentModerationMetaId = some n ∧
      (∃ r ∈ (SIS.updateEnrichmentData 1 claim8Data 42 sisStore).1.contentModerationMetas,
        r.id = n) ∧
      (∀ r ∈ (SIS.updateEnrichmentData 1 claim8Data 42 sisStore).1.contentModerationMetas,
        r.id = n →
        ((modData.isSafe = none → (r.isSafe = true ↔ noLabelExceeds80 modData)) ∧
         (∀ b, modData.isSafe = some b → r.isSafe = b))) :=
  claim8_isSafe_threshold sisStore 1 42 claim8Data modData sisItem rfl rfl rfl
    (by simp [catTableIds, sisStore])
    (by intro i0 h; simp [sisItem] at h)
